import Mathlib

/-!
Verification of the AST-to-IR builder of `torch/jit/frontend.py`.

The Python source translates a restricted subset of Python function/class
syntax trees into the TorchScript tree-view IR.  We shallowly embed the
relevant parts: the Python AST node kinds the builders handle, the tree-view
IR nodes they produce, the operator lookup tables, and the builder functions
(`build_expr` / `build_stmt` dispatch and their handlers), with Python-level
failures (AssertionError, TypeError, AttributeError, IndexError, ValueError)
and the frontend's own error classes modelled as an explicit error type.
-/

namespace Frontend

/-- A resolved (start, stop) pair of character offsets into the source text.
Mirrors the `Range` carried by tree-view nodes and diagnostics. -/
structure Range where
  start : Nat
  stop : Nat
  deriving Repr, DecidableEq

/-- Modelled from the spec: the external tree-view library derives the range
of a node built without an explicit range as the span of its children. -/
def Range.span (a b : Range) : Range :=
  ⟨min a.start b.start, max a.stop b.stop⟩

/-- A (1-based line, 0-based column) location, as carried by every Python
AST node via `lineno` / `col_offset`. -/
structure Loc where
  lineno : Nat
  col : Nat
  deriving Repr, DecidableEq

/-- Modelled from the spec: `SourceContext` (defined in `torch._jit_internal`,
outside the given source) owns the source text of one unit, carries the
true-division flag, and maps (line, column) pairs and raw offsets to `Range`
values within the unit's text. -/
structure SourceContext where
  source : String
  uses_true_division : Bool
  deriving Repr, DecidableEq

/-- Character offset of the first character of 1-based line `n+1`, given the
remaining characters: skips `n` newline characters. -/
def lineStartList : List Char → Nat → Nat
  | _, 0 => 0
  | [], _ + 1 => 0
  | c :: cs, n + 1 =>
      if c = '\n' then 1 + lineStartList cs n else 1 + lineStartList cs (n + 1)

/-- Offset of the start of 1-based line `lineno` in the unit's source. -/
def SourceContext.lineStart (ctx : SourceContext) (lineno : Nat) : Nat :=
  lineStartList ctx.source.toList (lineno - 1)

/-- Modelled from the spec: `ctx.make_range(lineno, col_start, col_end)`
resolves a line/column pair against the unit's text. -/
def SourceContext.make_range (ctx : SourceContext) (lineno cs ce : Nat) : Range :=
  ⟨ctx.lineStart lineno + cs, ctx.lineStart lineno + ce⟩

/-- Modelled from the spec: `ctx.make_raw_range(start, end)` wraps two raw
offsets. -/
def SourceContext.make_raw_range (_ctx : SourceContext) (s e : Nat) : Range :=
  ⟨s, e⟩

/-- The failure outcomes of a translation step.  The first three mirror the
frontend's own diagnostic classes (`UnsupportedNodeError`, the other
`NotSupportedError` raises, and plain `FrontendError`); the `py*`
constructors model ordinary Python exceptions escaping from handler code. -/
inductive Err where
  | unsupportedNode (r : Range) (msg : String)
  | notSupported (r : Option Range) (msg : String)
  | frontendError (r : Range) (msg : String)
  | pyAssertionError (msg : String)
  | pyTypeError (msg : String)
  | pyAttributeError (msg : String)
  | pyIndexError (msg : String)
  | pyValueError (msg : String)
  deriving Repr, DecidableEq

/-- Is the error one of the two `NotSupportedError` shapes
(`UnsupportedNodeError` is a subclass of `NotSupportedError`)? -/
def Err.isNotSupported : Err → Bool
  | .unsupportedNode _ _ => true
  | .notSupported _ _ => true
  | _ => false

/-- Is the error any of the three documented frontend diagnostic kinds
(all are subclasses of `FrontendError` in the source)? -/
def Err.isFrontendDiagnostic : Err → Bool
  | .unsupportedNode _ _ => true
  | .notSupported _ _ => true
  | .frontendError _ _ => true
  | _ => false

/-! ### Operator kinds and lookup tables -/

/-- The binary operator node kinds of the `ast` module. -/
inductive BinOpKind where
  | Add | Sub | Mult | Div | Pow | Mod | FloorDiv
  | BitAnd | BitXor | BitOr | LShift | RShift | MatMult
  deriving Repr, DecidableEq

/-- `op.__name__` for binary operator kinds, used in error messages. -/
def BinOpKind.pyName : BinOpKind → String
  | .Add => "Add" | .Sub => "Sub" | .Mult => "Mult" | .Div => "Div"
  | .Pow => "Pow" | .Mod => "Mod" | .FloorDiv => "FloorDiv"
  | .BitAnd => "BitAnd" | .BitXor => "BitXor" | .BitOr => "BitOr"
  | .LShift => "LShift" | .RShift => "RShift" | .MatMult => "MatMult"

/-- The unary operator node kinds of the `ast` module. -/
inductive UnaryOpKind where
  | Not | USub | Invert | UAdd
  deriving Repr, DecidableEq

/-- `op.__name__` for unary operator kinds. -/
def UnaryOpKind.pyName : UnaryOpKind → String
  | .Not => "Not" | .USub => "USub" | .Invert => "Invert" | .UAdd => "UAdd"

/-- The boolean operator node kinds of the `ast` module. -/
inductive BoolOpKind where
  | And | Or
  deriving Repr, DecidableEq

/-- `op.__name__` for boolean operator kinds. -/
def BoolOpKind.pyName : BoolOpKind → String
  | .And => "And" | .Or => "Or"

/-- The comparison operator node kinds of the `ast` module. -/
inductive CmpOpKind where
  | Eq | NotEq | LtE | Lt | GtE | Gt | Is | IsNot | In | NotIn
  deriving Repr, DecidableEq

/-- `op.__name__` for comparison operator kinds. -/
def cmpOpPyName : CmpOpKind → String
  | .Eq => "Eq" | .NotEq => "NotEq" | .LtE => "LtE" | .Lt => "Lt"
  | .GtE => "GtE" | .Gt => "Gt" | .Is => "Is" | .IsNot => "IsNot"
  | .In => "In" | .NotIn => "NotIn"

/-- `StmtBuilder.augassign_map`: the operators accepted in augmented
assignments. -/
def augassign_map : BinOpKind → Option String
  | .Add => some "+"
  | .Sub => some "-"
  | .Mult => some "*"
  | .Div => some "/"
  | .Mod => some "%"
  | _ => none

/-- `ExprBuilder.binop_map` (including the `MatMult` entry added after the
dict literal). -/
def binop_map : BinOpKind → Option String
  | .Add => some "+"
  | .Sub => some "-"
  | .Mult => some "*"
  | .Div => some "/"
  | .Pow => some "**"
  | .Mod => some "%"
  | .FloorDiv => some "//"
  | .BitAnd => some "&"
  | .BitXor => some "^"
  | .BitOr => some "|"
  | .LShift => some "<<"
  | .RShift => some ">>"
  | .MatMult => some "@"

/-- `ExprBuilder.unop_map`.  `UAdd` has no entry. -/
def unop_map : UnaryOpKind → Option String
  | .Not => some "not"
  | .USub => some "-"
  | .Invert => some "~"
  | .UAdd => none

/-- `ExprBuilder.boolop_map`. -/
def boolop_map : BoolOpKind → Option String
  | .And => some "and"
  | .Or => some "or"

/-- `ExprBuilder.cmpop_map`. -/
def cmpop_map : CmpOpKind → Option String
  | .Eq => some "=="
  | .NotEq => some "!="
  | .LtE => some "<="
  | .Lt => some "<"
  | .GtE => some ">="
  | .Gt => some ">"
  | .Is => some "is"
  | .IsNot => some "is not"
  | .In => some "in"
  | .NotIn => some "not in"

/-- `_reserved_prefix = '__jit'`. -/
def reservedPref : String := "__jit"

/-! ### The Python AST fragment the builders handle

Every node carries its `lineno` / `col_offset` pair as a `Loc` (every real
`ast` node has these attributes, whether or not the handler reads them).
Literal nodes are the pre-3.8 classes the handlers dispatch on
(`Name` / `NameConstant` / `Num` / `Str` / `Ellipsis`). -/

/-- The values an `ast.NameConstant` node can hold. -/
inductive PyConstVal where
  | vTrue | vFalse | vNone
  deriving Repr, DecidableEq

/-- `str(value)` for a `NameConstant` value. -/
def PyConstVal.str : PyConstVal → String
  | .vTrue => "True"
  | .vFalse => "False"
  | .vNone => "None"

mutual

/-- The Python expression nodes handled by `ExprBuilder`. -/
inductive PyExpr where
  | Name (loc : Loc) (id : String)
  | NameConstant (loc : Loc) (value : PyConstVal)
  | Num (loc : Loc) (lit : String)
  | Str (loc : Loc) (s : String)
  | BinOpE (loc : Loc) (left : PyExpr) (op : BinOpKind) (right : PyExpr)
  | UnaryOpE (loc : Loc) (op : UnaryOpKind) (operand : PyExpr)
  | BoolOp (loc : Loc) (op : BoolOpKind) (values : List PyExpr)
  | Compare (loc : Loc) (left : PyExpr) (ops : List CmpOpKind) (comparators : List PyExpr)
  | IfExp (loc : Loc) (test : PyExpr) (body : PyExpr) (orelse : PyExpr)
  | Attr (loc : Loc) (value : PyExpr) (attr : String)
  | Call (loc : Loc) (callee : PyExpr) (args : List PyExpr) (keywords : List PyKeyword)
  | SubscriptE (loc : Loc) (value : PyExpr) (slice : PySlice)
  | TupleE (loc : Loc) (elts : List PyExpr)
  | ListE (loc : Loc) (elts : List PyExpr)
  | DictE (loc : Loc) (keys : List PyExpr) (values : List PyExpr)
  | EllipsisE (loc : Loc)
  | StarredE (loc : Loc) (value : PyExpr)
  | ListCompE (loc : Loc) (elt : PyExpr) (generators : List PyComprehension)
  deriving Repr

/-- An `ast` slice: `Index`, `Slice`, `ExtSlice` (whose `dims` are again
slice nodes), or the Python-2-only bare `Ellipsis` slice. -/
inductive PySlice where
  | Index (value : PyExpr)
  | Slice (lower : Option PyExpr) (upper : Option PyExpr) (step : Option PyExpr)
  | ExtSlice (dims : List PySlice)
  | EllipsisS
  deriving Repr

/-- One `ast.comprehension` generator clause: target, iterable, filters. -/
inductive PyComprehension where
  | mk (target : PyExpr) (iter : PyExpr) (ifs : List PyExpr)
  deriving Repr

/-- One `ast.keyword` call argument: `arg` is `None` for `**`-expansion. -/
inductive PyKeyword where
  | mk (arg : Option String) (value : PyExpr)
  deriving Repr

end

/-- One `ast.withitem`: context-manager expression plus optional bound name. -/
structure PyWithItem where
  context_expr : PyExpr
  optional_vars : Option PyExpr
  deriving Repr

/-- The Python statement nodes handled by `StmtBuilder`.  `For` carries the
`orelse` field of the real node, which the handler silently ignores. -/
inductive PyStmt where
  | Expr (loc : Loc) (value : PyExpr)
  | Assign (loc : Loc) (targets : List PyExpr) (value : PyExpr)
  | AnnAssign (loc : Loc) (target : PyExpr) (anno : PyExpr) (value : Option PyExpr)
  | Delete (loc : Loc) (targets : List PyExpr)
  | Return (loc : Loc) (value : Option PyExpr)
  | Raise (loc : Loc) (exc : Option PyExpr)
  | Assert (loc : Loc) (test : PyExpr) (msg : Option PyExpr)
  | AugAssign (loc : Loc) (target : PyExpr) (op : BinOpKind) (value : PyExpr)
  | While (loc : Loc) (test : PyExpr) (body : List PyStmt) (orelse : List PyStmt)
  | For (loc : Loc) (target : PyExpr) (iter : PyExpr) (body : List PyStmt) (orelse : List PyStmt)
  | If (loc : Loc) (test : PyExpr) (body : List PyStmt) (orelse : List PyStmt)
  | Pass (loc : Loc)
  | Break (loc : Loc)
  | Continue (loc : Loc)
  | With (loc : Loc) (items : List PyWithItem) (body : List PyStmt)
  deriving Repr

/-- One formal parameter (`ast.arg`): name and optional annotation. -/
structure PyArg where
  loc : Loc
  arg : String
  anno : Option PyExpr
  deriving Repr

/-- An `ast.arguments` node, as read by `build_param_list`. -/
structure PyArguments where
  args : List PyArg
  vararg : Option PyArg
  kwonlyargs : List PyArg
  kw_defaults : List (Option PyExpr)
  kwarg : Option PyArg
  deriving Repr

/-! ### The tree-view IR fragment the builders produce

The IR node classes come from `torch._C._jit_tree_views` (outside the given
source).  Constructors that the Python code calls with an explicit range
store it; for the others the range is derived (see `TreeExpr.range`). -/

/-- An `Ident` tree view: a range plus a name. -/
structure Ident where
  r : Range
  name : String
  deriving Repr

mutual

/-- The tree-view expression nodes the expression handlers produce. -/
inductive TreeExpr where
  | Var (id : Ident)
  | Const (r : Range) (value : String)
  | StringLiteral (r : Range) (value : String)
  | TrueLiteral (r : Range)
  | FalseLiteral (r : Range)
  | NoneLiteral (r : Range)
  | Dots (r : Range)
  | BinOp (op : String) (lhs : TreeExpr) (rhs : TreeExpr)
  | UnaryOp (r : Range) (op : String) (operand : TreeExpr)
  | TernaryIf (test : TreeExpr) (onTrue : TreeExpr) (onFalse : TreeExpr)
  | Select (base : TreeExpr) (attr : Ident)
  | Apply (callee : TreeExpr) (args : List TreeExpr) (kwargs : List TreeKwarg)
  | Subscript (base : TreeExpr) (indices : List TreeExpr)
  | SliceExpr (r : Range) (lower : Option TreeExpr) (upper : Option TreeExpr) (step : Option TreeExpr)
  | ListLiteral (r : Range) (elems : List TreeExpr)
  | TupleLiteral (r : Range) (elems : List TreeExpr)
  | DictLiteral (r : Range) (keys : List TreeExpr) (vals : List TreeExpr)
  | ListComp (r : Range) (elt : TreeExpr) (target : TreeExpr) (iter : TreeExpr)
  | Starred (r : Range) (operand : TreeExpr)
  | EmptyTypeAnno (r : Range)
  deriving Repr

/-- The `Attribute` tree view used for a named keyword argument. -/
inductive TreeKwarg where
  | mk (name : Ident) (value : TreeExpr)
  deriving Repr

end

mutual

/-- The range carried by a tree-view expression.  Nodes the builder creates
with an explicit range keep it; the rest are modelled from the spec as the
span of their children (the tree-view classes are external). -/
def TreeExpr.range : TreeExpr → Range
  | .Var id => id.r
  | .Const r _ => r
  | .StringLiteral r _ => r
  | .TrueLiteral r => r
  | .FalseLiteral r => r
  | .NoneLiteral r => r
  | .Dots r => r
  | .BinOp _ l rr => Range.span l.range rr.range
  | .UnaryOp r _ _ => r
  | .TernaryIf a b c => Range.span (Range.span a.range b.range) c.range
  | .Select b id => Range.span b.range id.r
  | .Apply f args kwargs => spanKwargs (spanExprs (TreeExpr.range f) args) kwargs
  | .Subscript b idxs => spanExprs (TreeExpr.range b) idxs
  | .SliceExpr r _ _ _ => r
  | .ListLiteral r _ => r
  | .TupleLiteral r _ => r
  | .DictLiteral r _ _ => r
  | .ListComp r _ _ _ => r
  | .Starred r _ => r
  | .EmptyTypeAnno r => r

/-- Fold `Range.span` over the ranges of a list of expressions. -/
def spanExprs : Range → List TreeExpr → Range
  | r, [] => r
  | r, t :: ts => spanExprs (Range.span r (TreeExpr.range t)) ts

/-- Fold `Range.span` over the ranges of keyword-argument attributes. -/
def spanKwargs : Range → List TreeKwarg → Range
  | r, [] => r
  | r, .mk id t :: ts => spanKwargs (Range.span (Range.span r id.r) (TreeExpr.range t)) ts

end

/-- A `WithItem` tree view. -/
structure TreeWithItem where
  r : Range
  target : TreeExpr
  var : Option TreeExpr
  deriving Repr

/-- The tree-view statement nodes the statement handlers produce.
`Assign` covers both plain assignment (no type) and annotated assignment. -/
inductive TreeStmt where
  | ExprStmt (e : TreeExpr)
  | Assign (lhs : List TreeExpr) (rhs : TreeExpr) (ty : Option TreeExpr)
  | Delete (e : TreeExpr)
  | Return (r : Range) (value : Option TreeExpr)
  | Raise (r : Range) (e : TreeExpr)
  | Assert (r : Range) (test : TreeExpr) (msg : Option TreeExpr)
  | AugAssign (lhs : TreeExpr) (op : String) (rhs : TreeExpr)
  | While (r : Range) (test : TreeExpr) (body : List TreeStmt)
  | For (r : Range) (targets : List TreeExpr) (iters : List TreeExpr) (body : List TreeStmt)
  | If (r : Range) (test : TreeExpr) (body : List TreeStmt) (orelse : List TreeStmt)
  | Pass (r : Range)
  | Break (r : Range)
  | Continue (r : Range)
  | With (r : Range) (items : List TreeWithItem) (body : List TreeStmt)
  deriving Repr

/-- A `Param` tree view: annotation expression, name, keyword-only flag. -/
structure Param where
  anno : TreeExpr
  id : Ident
  kwarg_only : Bool
  deriving Repr

/-! ### Raw-text scanning utilities -/

/-- The characters of Python's `string.whitespace`. -/
def isPyWhitespace (c : Char) : Bool :=
  c = ' ' ∨ c = '\t' ∨ c = '\n' ∨ c = '\r' ∨ c = '\x0b' ∨ c = '\x0c'

/-- The whitespace-skipping loop of `build_Attribute`: starting at absolute
offset `pos` with the remaining characters `cs`, advance past whitespace.
Running off the end of the text is Python's `IndexError` from `source[index]`. -/
def skipWsFrom : List Char → Nat → Except Err Nat
  | [], _ => throw (.pyIndexError "index out of range")
  | c :: cs, pos => if isPyWhitespace c then skipWsFrom cs (pos + 1) else pure pos

/-- Python's `str.rindex` restricted to a character list: the largest
position where `needle` occurs in `hay`. -/
def strRIndex (hay needle : List Char) : Option Nat :=
  (List.range (hay.length + 1)).reverse.find? (fun p => needle.isPrefixOf (hay.drop p))

/-- `find_before(ctx, pos, substr, offsets)`: find the last occurrence of
`substr` in the text before `pos` (`str.rindex`, raising `ValueError` when
absent) and widen the resulting range by the two offsets.  The Python
offsets are ints; a negative resolved offset is clamped at zero here. -/
def find_before (ctx : SourceContext) (pos : Nat) (substr : String) (off1 off2 : Int) : Except Err Range :=
  match strRIndex (ctx.source.toList.take pos) substr.toList with
  | none => throw (.pyValueError "substring not found")
  | some new_pos =>
      pure (ctx.make_raw_range ((new_pos + off1 : Int)).toNat
        ((new_pos + substr.length + off2 : Int)).toNat)

/-- `zip(xs, ys, zs)` over three lists, truncating at the shortest. -/
def zip3 {α β γ : Type} : List α → List β → List γ → List (α × β × γ)
  | a :: as, b :: bs, c :: cs => (a, b, c) :: zip3 as bs cs
  | _, _, _ => []

/-! ### Non-recursive expression handlers -/

/-- `ExprBuilder.build_Name`. -/
def build_Name (ctx : SourceContext) (loc : Loc) (id : String) : Except Err TreeExpr :=
  let r := ctx.make_range loc.lineno loc.col (loc.col + id.length)
  if id.startsWith reservedPref then
    throw (.notSupported (some r)
      ("names of variables used in JIT-ed functions can't start with " ++ reservedPref))
  else if id = "True" then pure (.TrueLiteral r)
  else if id = "False" then pure (.FalseLiteral r)
  else if id = "None" then pure (.NoneLiteral r)
  else pure (.Var ⟨r, id⟩)

/-- `ExprBuilder.build_NameConstant`.  The `ValueError` branch for other
constants cannot arise: a `NameConstant` holds only these three values. -/
def build_NameConstant (ctx : SourceContext) (loc : Loc) (value : PyConstVal) : Except Err TreeExpr :=
  let r := ctx.make_range loc.lineno loc.col (loc.col + (PyConstVal.str value).length)
  match value with
  | .vTrue => pure (.TrueLiteral r)
  | .vFalse => pure (.FalseLiteral r)
  | .vNone => pure (.NoneLiteral r)

/-- `ExprBuilder.build_Num`: the literal is kept as its textual spelling
`str(expr.n)`, carried by the AST node here. -/
def build_Num (ctx : SourceContext) (loc : Loc) (lit : String) : Except Err TreeExpr :=
  let r := ctx.make_range loc.lineno loc.col (loc.col + lit.length)
  pure (.Const r lit)

/-- `ExprBuilder.build_Str`: fixed one-character range. -/
def build_Str (ctx : SourceContext) (loc : Loc) (s : String) : Except Err TreeExpr :=
  let r := ctx.make_range loc.lineno loc.col (loc.col + 1)
  pure (.StringLiteral r s)

/-- `ExprBuilder.build_Ellipsis`: fixed three-character range. -/
def build_Ellipsis (ctx : SourceContext) (loc : Loc) : Except Err TreeExpr :=
  let r := ctx.make_range loc.lineno loc.col (loc.col + 3)
  pure (.Dots r)

/-- The error message raised by `build_BinOp` for `/` without the context's
true-division flag. -/
def divisionMsg : String :=
  "Division of ints in TorchScript uses Python 3 true " ++
  "division semantics. Please put `from __future__ " ++
  "import division` at the top of your file"

/-- The loop body of `ExprBuilder.build_Compare` over the zipped
(lhs, op, rhs) triples, accumulating the conjunction built so far. -/
def compareLoop (ctx : SourceContext) :
    Option TreeExpr → List (TreeExpr × CmpOpKind × TreeExpr) → Except Err (Option TreeExpr)
  | result, [] => pure result
  | result, (lhs, op, rhs) :: rest =>
      let r := ctx.make_raw_range lhs.range.stop rhs.range.start
      match cmpop_map op with
      | none =>
          throw (.notSupported (some r) ("unsupported comparison operator: " ++ cmpOpPyName op))
      | some op_token =>
          let cmp_expr :=
            if op = CmpOpKind.NotIn then
              TreeExpr.UnaryOp r "not" (.BinOp "in" lhs rhs)
            else
              TreeExpr.BinOp op_token lhs rhs
          match result with
          | none => compareLoop ctx (some cmp_expr) rest
          | some acc => compareLoop ctx (some (.BinOp "and" acc cmp_expr)) rest

/-! ### The expression builder

`ExprBuilder`'s dispatch plus every handler, inlined arm by arm.  The
handlers that recurse are written inside one mutual block together with the
element-wise helpers over the nested lists and options. -/

mutual

/-- `build_expr = ExprBuilder()`: dispatch on the node kind. -/
def build_expr (ctx : SourceContext) : PyExpr → Except Err TreeExpr
  | .Name loc id => build_Name ctx loc id
  | .NameConstant loc value => build_NameConstant ctx loc value
  | .Num loc lit => build_Num ctx loc lit
  | .Str loc s => build_Str ctx loc s
  | .EllipsisE loc => build_Ellipsis ctx loc
  -- ExprBuilder.build_Attribute: the attribute name has no grammar location,
  -- so its range comes from scanning the raw text forward from one past the
  -- base's end, skipping whitespace, for len(expr.attr) characters.
  | .Attr _loc value attr => do
      let base ← build_expr ctx value
      let start_pos ← skipWsFrom (ctx.source.toList.drop (base.range.stop + 1)) (base.range.stop + 1)
      let name_range := ctx.make_raw_range start_pos (start_pos + attr.length)
      pure (.Select base ⟨name_range, attr⟩)
  -- ExprBuilder.build_Call.  The `starargs` branch is Python-2-only
  -- (`hasattr(expr, 'starargs')` is false on the ASTs modelled here).
  | .Call _loc fn args keywords => do
      let func ← build_expr ctx fn
      let argst ← build_exprs ctx args
      let kwargs ← buildKeywords ctx keywords
      pure (.Apply func argst kwargs)
  -- ExprBuilder.build_BinOp
  | .BinOpE _loc left op right => do
      let lhs ← build_expr ctx left
      let rhs ← build_expr ctx right
      if op = BinOpKind.Div ∧ ¬ctx.uses_true_division then
        throw (.frontendError (ctx.make_raw_range lhs.range.stop rhs.range.start) divisionMsg)
      else
        match binop_map op with
        | none =>
            throw (.notSupported (some (ctx.make_raw_range lhs.range.stop rhs.range.start))
              ("unsupported binary operator: " ++ BinOpKind.pyName op))
        | some op_token => pure (.BinOp op_token lhs rhs)
  -- ExprBuilder.build_UnaryOp: the source computes `len(op_token)` for the
  -- range BEFORE checking that the lookup succeeded, so a missing operator
  -- (unary +) raises a Python TypeError, never reaching the
  -- `NotSupportedError` branch below it.
  | .UnaryOpE loc op operand => do
      let sub_expr ← build_expr ctx operand
      match unop_map op with
      | none => throw (.pyTypeError "object of type NoneType has no len()")
      | some op_token =>
          let r := ctx.make_range loc.lineno loc.col (loc.col + op_token.length)
          pure (.UnaryOp r op_token sub_expr)
  -- ExprBuilder.build_BoolOp
  | .BoolOp _loc op values => do
      if values.length < 2 then
        throw (.pyAssertionError
          ("expected at least 2 values in BoolOp, but got " ++ toString values.length))
      else do
        let sub_exprs ← build_exprs ctx values
        match boolop_map op with
        | none =>
            match sub_exprs with
            | a :: b :: _ =>
                throw (.notSupported (some (ctx.make_raw_range a.range.stop b.range.start))
                  ("unsupported boolean operator: " ++ BoolOpKind.pyName op))
            | _ => throw (.pyIndexError "list index out of range")
        | some op_token =>
            match sub_exprs with
            | lhs :: rest => pure (rest.foldl (fun acc rhs => .BinOp op_token acc rhs) lhs)
            | [] => throw (.pyIndexError "list index out of range")
  -- ExprBuilder.build_IfExp
  | .IfExp _loc test body orelse => do
      let t ← build_expr ctx test
      let b ← build_expr ctx body
      let e ← build_expr ctx orelse
      pure (.TernaryIf t b e)
  -- ExprBuilder.build_Compare: operands are built once, then the zipped
  -- (lhs, op, rhs) triples are folded into a conjunction; an empty chain
  -- would make the Python handler return None, which is not a tree.
  | .Compare _loc left ops comparators => do
      let lt ← build_expr ctx left
      let cts ← build_exprs ctx comparators
      let res ← compareLoop ctx none (zip3 (lt :: cts) ops cts)
      match res with
      | some t => pure t
      | none => throw (.pyTypeError "expression handler returned None")
  -- ExprBuilder.build_Subscript.  N-dimensional indexing using Tuple:
  -- x[(i, j, k)] is x[i, j, k]; indexing with a List is different and is
  -- NOT flattened here.
  | .SubscriptE _loc value (.Index (.TupleE _tloc elts)) => do
      let base ← build_expr ctx value
      let indices ← build_exprs ctx elts
      pure (.Subscript base indices)
  | .SubscriptE _loc value (.Index iv) => do
      let base ← build_expr ctx value
      let i ← build_expr ctx iv
      pure (.Subscript base [i])
  | .SubscriptE _loc value (.Slice lower upper step) => do
      let base ← build_expr ctx value
      let lo ← buildOptExpr ctx lower
      let up ← buildOptExpr ctx upper
      let st ← buildOptExpr ctx step
      pure (.Subscript base [.SliceExpr base.range lo up st])
  | .SubscriptE _loc value (.ExtSlice dims) => do
      let base ← build_expr ctx value
      let sub_exprs ← buildExtDims ctx base dims
      pure (.Subscript base sub_exprs)
  -- a bare Ellipsis slice can only happen in Python 2
  | .SubscriptE _loc value .EllipsisS => do
      let base ← build_expr ctx value
      throw (.notSupported (some base.range) "ellipsis is not supported")
  -- ExprBuilder.build_List
  | .ListE loc elts => do
      let r := ctx.make_range loc.lineno loc.col (loc.col + 1)
      let ts ← build_exprs ctx elts
      pure (.ListLiteral r ts)
  -- ExprBuilder.build_Tuple
  | .TupleE loc elts => do
      let r := ctx.make_range loc.lineno loc.col (loc.col + 1)
      let ts ← build_exprs ctx elts
      pure (.TupleLiteral r ts)
  -- ExprBuilder.build_Dict
  | .DictE loc keys values => do
      let r := ctx.make_range loc.lineno loc.col (loc.col + 1)
      let ks ← build_exprs ctx keys
      let vs ← build_exprs ctx values
      pure (.DictLiteral r ks vs)
  -- ExprBuilder.build_Starred
  | .StarredE loc value => do
      let r := ctx.make_range loc.lineno loc.col (loc.col + 1)
      let t ← build_expr ctx value
      pure (.Starred r t)
  -- ExprBuilder.build_ListComp: note the zero-width range (col to col).
  | .ListCompE loc elt generators => do
      let r := ctx.make_range loc.lineno loc.col loc.col
      if generators.length > 1 then
        throw (.notSupported (some r) "multiple comprehension generators not supported yet")
      else
        match generators with
        | [] => throw (.pyIndexError "list index out of range")
        | .mk target iter ifs :: _ =>
            if ifs.length ≠ 0 then
              throw (.notSupported (some r) "comprehension ifs not supported yet")
            else do
              let elt_expr ← build_expr ctx elt
              let target_expr ← build_expr ctx target
              let iter_expr ← build_expr ctx iter
              pure (.ListComp r elt_expr target_expr iter_expr)
termination_by e => sizeOf e
decreasing_by all_goals (simp_wf <;> omega)

/-- Build every expression of a list in order (list comprehensions such as
`[build_expr(ctx, e) for e in exprs]`). -/
def build_exprs (ctx : SourceContext) : List PyExpr → Except Err (List TreeExpr)
  | [] => pure []
  | e :: es => do
      let t ← build_expr ctx e
      let ts ← build_exprs ctx es
      pure (t :: ts)
termination_by es => sizeOf es
decreasing_by all_goals (simp_wf <;> omega)

/-- Build an optional sub-expression (`build_expr(ctx, e) if e else None`). -/
def buildOptExpr (ctx : SourceContext) : Option PyExpr → Except Err (Option TreeExpr)
  | none => pure none
  | some e => do
      let t ← build_expr ctx e
      pure (some t)
termination_by oe => sizeOf oe
decreasing_by all_goals (simp_wf <;> omega)

/-- The keyword loop of `build_Call`: each keyword value is built first;
a keyword with no name (`**`-expansion) is then rejected. -/
def buildKeywords (ctx : SourceContext) : List PyKeyword → Except Err (List TreeKwarg)
  | [] => pure []
  | .mk arg value :: rest => do
      let kw_expr ← build_expr ctx value
      match arg with
      | none => throw (.notSupported (some kw_expr.range) "keyword-arg expansion is not supported")
      | some name => do
          let restt ← buildKeywords ctx rest
          pure (.mk ⟨kw_expr.range, name⟩ kw_expr :: restt)
termination_by ks => sizeOf ks
decreasing_by all_goals (simp_wf <;> omega)

/-- The dims loop of `build_Subscript`'s local `build_ExtSlice`, with the
local `build_Index` and `build_SliceExpr` inlined: an `Index` dim holding a
tuple or list literal is rejected; a nested `ExtSlice` dim falls into the
catch-all rejection (its message renders the offending class). -/
def buildExtDims (ctx : SourceContext) (base : TreeExpr) : List PySlice → Except Err (List TreeExpr)
  | [] => pure []
  | .Index (.TupleE _ _) :: _ =>
      throw (.notSupported (some base.range)
        "slicing multiple dimensions with sequences not supported yet")
  | .Index (.ListE _ _) :: _ =>
      throw (.notSupported (some base.range)
        "slicing multiple dimensions with sequences not supported yet")
  | .Index iv :: ds => do
      let t ← build_expr ctx iv
      let ts ← buildExtDims ctx base ds
      pure (t :: ts)
  | .Slice lower upper step :: ds => do
      let lo ← buildOptExpr ctx lower
      let up ← buildOptExpr ctx upper
      let st ← buildOptExpr ctx step
      let ts ← buildExtDims ctx base ds
      pure (.SliceExpr base.range lo up st :: ts)
  | .EllipsisS :: ds => do
      let ts ← buildExtDims ctx base ds
      pure (.Dots base.range :: ts)
  | .ExtSlice _ :: _ =>
      throw (.notSupported (some base.range)
        "slicing multiple dimensions with ExtSlice not supported")
termination_by ds => sizeOf ds
decreasing_by all_goals (simp_wf <;> omega)

end

/-- The total location accessor every `ast` node supports. -/
def PyExpr.loc : PyExpr → Loc
  | .Name loc _ => loc
  | .NameConstant loc _ => loc
  | .Num loc _ => loc
  | .Str loc _ => loc
  | .BinOpE loc _ _ _ => loc
  | .UnaryOpE loc _ _ => loc
  | .BoolOp loc _ _ => loc
  | .Compare loc _ _ _ => loc
  | .IfExp loc _ _ _ => loc
  | .Attr loc _ _ => loc
  | .Call loc _ _ _ => loc
  | .SubscriptE loc _ _ => loc
  | .TupleE loc _ => loc
  | .ListE loc _ => loc
  | .DictE loc _ _ => loc
  | .EllipsisE loc => loc
  | .StarredE loc _ => loc
  | .ListCompE loc _ _ => loc

/-- `build_Raise` calls `build_expr(ctx, stmt.exc)` unconditionally.  When a
bare `raise` supplies no exception, Python passes `None`: the `Builder`
dispatch looks up a `build_NoneType` handler, finds none, and constructs an
`UnsupportedNodeError` — whose `__init__` immediately reads
`offending_node.lineno`.  `None` has no such attribute, so an
`AttributeError` escapes before any frontend diagnostic exists. -/
def build_expr_opt (ctx : SourceContext) : Option PyExpr → Except Err TreeExpr
  | some e => build_expr ctx e
  | none => throw (.pyAttributeError "NoneType object has no attribute lineno")

/-- `WithItemBuilder.build_withitem`: the range is anchored at the context
expression's start and sized by `len(pretty_node_names[ast.With])`, the
pretty name "with statements" — not the `with` keyword. -/
def build_withitem (ctx : SourceContext) (item : PyWithItem) : Except Err TreeWithItem := do
  let lineno := item.context_expr.loc.lineno
  let start := item.context_expr.loc.col
  let r := ctx.make_range lineno start (start + ("with statements").length)
  let ce ← build_expr ctx item.context_expr
  let ov ← buildOptExpr ctx item.optional_vars
  pure ⟨r, ce, ov⟩

/-- `build_withitems`. -/
def build_withitems (ctx : SourceContext) : List PyWithItem → Except Err (List TreeWithItem)
  | [] => pure []
  | i :: is => do
      let t ← build_withitem ctx i
      let ts ← build_withitems ctx is
      pure (t :: ts)

/-! ### The statement builder -/

mutual

/-- `build_stmt = StmtBuilder()`: dispatch on the statement kind.  A handler
may produce no statement (`none`), which `build_stmts` filters out. -/
def build_stmt (ctx : SourceContext) : PyStmt → Except Err (Option TreeStmt)
  -- StmtBuilder.build_Expr: a bare string-literal expression statement is a
  -- docstring and is dropped (the source tests `value.__class__.__name__`).
  | .Expr _loc (.Str _sloc _s) => pure none
  | .Expr _loc value => do
      let t ← build_expr ctx value
      pure (some (.ExprStmt t))
  -- StmtBuilder.build_Assign
  | .Assign _loc targets value => do
      let rhs ← build_expr ctx value
      let lhs ← build_exprs ctx targets
      pure (some (.Assign lhs rhs none))
  -- StmtBuilder.build_AnnAssign: without a value, an UnsupportedNodeError;
  -- AnnAssign has no entry in node_start_tokens, so the default range
  -- length is len(' ') = 1, and the pretty name is "annotated assignments".
  | .AnnAssign loc _target _anno none =>
      throw (.unsupportedNode (ctx.make_range loc.lineno loc.col (loc.col + 1))
        "annotated assignments without assigned value aren't supported")
  | .AnnAssign _loc target anno (some value) => do
      let rhs ← build_expr ctx value
      let lhs ← build_expr ctx target
      let the_type ← build_expr ctx anno
      pure (some (.Assign [lhs] rhs (some the_type)))
  -- StmtBuilder.build_Delete
  | .Delete loc targets =>
      if targets.length > 1 then
        throw (.notSupported
          (some (ctx.make_range loc.lineno loc.col (loc.col + ("del").length)))
          "del with more than one operand is not supported")
      else
        match targets with
        | [] => throw (.pyIndexError "list index out of range")
        | t :: _ => do
            let e ← build_expr ctx t
            pure (some (.Delete e))
  -- StmtBuilder.build_Return
  | .Return loc value => do
      let r := ctx.make_range loc.lineno loc.col (loc.col + ("return").length)
      let v ← buildOptExpr ctx value
      pure (some (.Return r v))
  -- StmtBuilder.build_Raise: the exception expression is built
  -- unconditionally, even when the raise carries none.
  | .Raise loc exc => do
      let r := ctx.make_range loc.lineno loc.col (loc.col + ("raise").length)
      let expr ← build_expr_opt ctx exc
      pure (some (.Raise r expr))
  -- StmtBuilder.build_Assert
  | .Assert loc test msg => do
      let r := ctx.make_range loc.lineno loc.col (loc.col + ("assert").length)
      let t ← build_expr ctx test
      let m ← buildOptExpr ctx msg
      pure (some (.Assert r t m))
  -- StmtBuilder.build_AugAssign: both sides are built first; an operator
  -- outside augassign_map is rejected with a range found by scanning the
  -- raw text backwards from the right-hand side's start for the last '='.
  | .AugAssign _loc target op value => do
      let lhs ← build_expr ctx target
      let rhs ← build_expr ctx value
      match augassign_map op with
      | some op_token => pure (some (.AugAssign lhs op_token rhs))
      | none => do
          let r ← find_before ctx rhs.range.start "=" (-1) 0
          throw (.notSupported (some r)
            ("unsupported kind of augumented assignment: " ++ BinOpKind.pyName op))
  -- StmtBuilder.build_While: an else branch is rejected with NO range
  -- (Python gives no usable location for it).
  | .While loc test body orelse =>
      if orelse.isEmpty then do
        let r := ctx.make_range loc.lineno loc.col (loc.col + ("while").length)
        let t ← build_expr ctx test
        let b ← build_stmts ctx body
        pure (some (.While r t b))
      else
        throw (.notSupported none "else branches of while loops aren't supported")
  -- StmtBuilder.build_For (the orelse of the ast node is ignored)
  | .For loc target iter body _orelse => do
      let r := ctx.make_range loc.lineno loc.col (loc.col + ("for").length)
      let t ← build_expr ctx target
      let i ← build_expr ctx iter
      let b ← build_stmts ctx body
      pure (some (.For r [t] [i] b))
  -- StmtBuilder.build_If
  | .If loc test body orelse => do
      let r := ctx.make_range loc.lineno loc.col (loc.col + ("if").length)
      let t ← build_expr ctx test
      let b ← build_stmts ctx body
      let e ← build_stmts ctx orelse
      pure (some (.If r t b e))
  -- StmtBuilder.build_Pass
  | .Pass loc =>
      pure (some (.Pass (ctx.make_range loc.lineno loc.col (loc.col + ("pass").length))))
  -- StmtBuilder.build_Break
  | .Break loc =>
      pure (some (.Break (ctx.make_range loc.lineno loc.col (loc.col + ("break").length))))
  -- StmtBuilder.build_Continue
  | .Continue loc =>
      pure (some (.Continue (ctx.make_range loc.lineno loc.col (loc.col + ("continue").length))))
  -- StmtBuilder.build_With
  | .With loc items body => do
      let r := ctx.make_range loc.lineno loc.col (loc.col + ("with").length)
      let its ← build_withitems ctx items
      let b ← build_stmts ctx body
      pure (some (.With r its b))
termination_by s => sizeOf s
decreasing_by all_goals (simp_wf <;> omega)

/-- `build_stmts`: translate each statement and drop `None` results. -/
def build_stmts (ctx : SourceContext) : List PyStmt → Except Err (List TreeStmt)
  | [] => pure []
  | s :: ss => do
      let t? ← build_stmt ctx s
      let ts ← build_stmts ctx ss
      match t? with
      | none => pure ts
      | some t => pure (t :: ts)
termination_by ss => sizeOf ss
decreasing_by all_goals (simp_wf <;> omega)

end

/-! ### Parameter-list building -/

/-- `_vararg_kwarg_err`. -/
def vararg_kwarg_err : String :=
  "Compiled functions can't take variable number of arguments " ++
  "or use keyword-only arguments with defaults"

/-- `build_param`: the parameter's range covers its name; an explicit
annotation is built, the annotation-less implicit receiver gets a synthetic
reference to the enclosing type, and any other unannotated parameter gets
the `EmptyTypeAnnotation` sentinel. -/
def build_param (ctx : SourceContext) (py_arg : PyArg) (self_name : Option String)
    (kwarg_only : Bool) : Except Err Param := do
  let name := py_arg.arg
  let r := ctx.make_range py_arg.loc.lineno py_arg.loc.col (py_arg.loc.col + name.length)
  let annotation_expr ←
    match py_arg.anno with
    | some ann => build_expr ctx ann
    | none =>
        match self_name with
        | some sn =>
            if name = "self" then pure (TreeExpr.Var ⟨r, sn⟩) else pure (TreeExpr.EmptyTypeAnno r)
        | none => pure (TreeExpr.EmptyTypeAnno r)
  pure ⟨annotation_expr, ⟨r, name⟩, kwarg_only⟩

/-- The list comprehension `[build_param(ctx, arg, self_name, kwarg_only) for arg in args]`. -/
def build_params (ctx : SourceContext) (self_name : Option String) (kwarg_only : Bool) :
    List PyArg → Except Err (List Param)
  | [] => pure []
  | a :: as => do
      let p ← build_param ctx a self_name kwarg_only
      let ps ← build_params ctx self_name kwarg_only as
      pure (p :: ps)

/-- The `kw_defaults` loop of `build_param_list`: the first non-`None`
default is built and the parameter list is rejected at its range. -/
def checkKwDefaults (ctx : SourceContext) : List (Option PyExpr) → Except Err Unit
  | [] => pure ()
  | none :: rest => checkKwDefaults ctx rest
  | some arg :: _ => do
      let t ← build_expr ctx arg
      throw (.notSupported (some t.range) vararg_kwarg_err)

/-- `build_param_list`: `**kwargs` and `*args` are rejected first (range
from one left of the name to its end — the Python `col_offset - 1` is an
int; the name starts at the column itself), then any defaulted keyword-only
parameter; otherwise ordinary parameters come first, then keyword-only
ones, each tagged with the keyword-only flag. -/
def build_param_list (ctx : SourceContext) (py_args : PyArguments) (self_name : Option String) :
    Except Err (List Param) := do
  match py_args.kwarg with
  | some expr =>
      throw (.notSupported
        (some (ctx.make_range expr.loc.lineno (expr.loc.col - 1) (expr.loc.col + expr.arg.length)))
        vararg_kwarg_err)
  | none =>
  match py_args.vararg with
  | some expr =>
      throw (.notSupported
        (some (ctx.make_range expr.loc.lineno (expr.loc.col - 1) (expr.loc.col + expr.arg.length)))
        vararg_kwarg_err)
  | none => do
      checkKwDefaults ctx py_args.kw_defaults
      let result ← build_params ctx self_name false py_args.args
      let result2 ← build_params ctx self_name true py_args.kwonlyargs
      pure (result ++ result2)

/-! ### The shape of the desugared comparison chain -/

/-- One pairwise comparison of a desugared chain: `not in` becomes the
logical negation of an `in` comparison; any other supported operator a
plain binary op with its token. -/
def pairwiseCmp (ctx : SourceContext) (lhs rhs : TreeExpr) (op : CmpOpKind) : TreeExpr :=
  if op = CmpOpKind.NotIn then
    .UnaryOp (ctx.make_raw_range lhs.range.stop rhs.range.start) "not" (.BinOp "in" lhs rhs)
  else
    .BinOp ((cmpop_map op).getD "") lhs rhs

/-- The pairwise comparisons of adjacent operands along a chain. -/
def pairwiseCmps (ctx : SourceContext) : List TreeExpr → List CmpOpKind → List TreeExpr
  | t1 :: t2 :: ts, op :: ops => pairwiseCmp ctx t1 t2 op :: pairwiseCmps ctx (t2 :: ts) ops
  | _, _ => []

/-- Left-associated conjunction with the logical `and` operator. -/
def conjoin : TreeExpr → List TreeExpr → TreeExpr
  | acc, [] => acc
  | acc, c :: cs => conjoin (.BinOp "and" acc c) cs

/-- Is the expression a string-literal node (`ast.Str`)? -/
def PyExpr.isStrLit : PyExpr → Bool
  | .Str _ _ => true
  | _ => false

/-- Is the extended-slice dim an `Index` holding a tuple or list literal? -/
def isSeqIndexDim : PySlice → Bool
  | .Index (.TupleE _ _) => true
  | .Index (.ListE _ _) => true
  | _ => false

/-- A range `r` attached to an IR node is well-placed for token offset
`tokenOff`: it starts at the token, is non-empty, and ends within the
unit's text. -/
def rangeOkAt (ctx : SourceContext) (tokenOff : Nat) (r : Range) : Prop :=
  r.start = tokenOff ∧ r.start < r.stop ∧ r.stop ≤ ctx.source.length

/-- The resolved offset of the token at `loc` plus `k` more columns fits in
the unit's text. -/
def SourceContext.offsetValid (ctx : SourceContext) (loc : Loc) (k : Nat) : Prop :=
  ctx.lineStart loc.lineno + loc.col + k ≤ ctx.source.length

/-! ### Reduction lemmas for the `Except` monad -/

@[simp] lemma except_bind_ok {ε α β : Type} (a : α) (f : α → Except ε β) :
    ((Except.ok a : Except ε α) >>= f) = f a := rfl

@[simp] lemma except_bind_error {ε α β : Type} (e : ε) (f : α → Except ε β) :
    ((Except.error e : Except ε α) >>= f) = Except.error e := rfl

@[simp] lemma except_pure_eq_ok {ε α : Type} (a : α) :
    (pure a : Except ε α) = Except.ok a := rfl

@[simp] lemma except_throw_eq_error {ε α : Type} (e : ε) :
    (throw e : Except ε α) = Except.error e := rfl

@[simp] lemma except_map_ok {ε α β : Type} (f : α → β) (a : α) :
    (f <$> (Except.ok a : Except ε α)) = Except.ok (f a) := rfl

@[simp] lemma except_map_error {ε α β : Type} (f : α → β) (e : ε) :
    (f <$> (Except.error e : Except ε α)) = Except.error e := rfl

@[simp] lemma except_Map_ok {ε α β : Type} (f : α → β) (a : α) :
    Except.map f (Except.ok a : Except ε α) = Except.ok (f a) := rfl

@[simp] lemma except_Map_error {ε α β : Type} (f : α → β) (e : ε) :
    Except.map f (Except.error e : Except ε α) = Except.error e := rfl

/-- Building a list of expressions preserves its length. -/
lemma build_exprs_length (ctx : SourceContext) :
    ∀ (es : List PyExpr) (ts : List TreeExpr),
      build_exprs ctx es = Except.ok ts → ts.length = es.length := by
  intro es
  induction es with
  | nil =>
      intro ts h
      simp [build_exprs] at h
      simp [← h]
  | cons e es ih =>
      intro ts h
      rw [build_exprs] at h
      cases he : build_expr ctx e with
      | error err => simp [he] at h
      | ok t =>
          rw [he] at h
          simp only [except_bind_ok] at h
          cases hes : build_exprs ctx es with
          | error err => simp [hes] at h
          | ok ts' =>
              rw [hes] at h
              simp only [except_bind_ok, except_pure_eq_ok, Except.ok.injEq] at h
              subst h
              simp [ih ts' hes]

/-- Every comparison operator kind has a token in `cmpop_map`. -/
lemma cmpop_map_total (op : CmpOpKind) : ∃ tok, cmpop_map op = some tok := by
  cases op <;> exact ⟨_, rfl⟩

/-- The comparison loop started with an accumulated conjunct extends it by
the pairwise comparisons of the remaining chain. -/
lemma compareLoop_some (ctx : SourceContext) :
    ∀ (ops : List CmpOpKind) (t : TreeExpr) (ts : List TreeExpr) (acc : TreeExpr),
      ops.length = ts.length →
      compareLoop ctx (some acc) (zip3 (t :: ts) ops ts) =
        Except.ok (some (conjoin acc (pairwiseCmps ctx (t :: ts) ops))) := by
  intro ops
  induction ops with
  | nil =>
      intro t ts acc hlen
      cases ts with
      | nil => simp [zip3, compareLoop, pairwiseCmps, conjoin]
      | cons t2 ts' => simp at hlen
  | cons op ops ih =>
      intro t ts acc hlen
      cases ts with
      | nil => simp at hlen
      | cons t2 ts' =>
          obtain ⟨tok, htok⟩ := cmpop_map_total op
          simp only [List.length_cons, Nat.add_right_cancel_iff] at hlen
          rw [zip3, compareLoop, htok]
          by_cases hni : op = CmpOpKind.NotIn
          · subst hni
            simp [ih t2 ts', hlen, pairwiseCmps, pairwiseCmp, conjoin]
          · simp [hni, ih t2 ts', hlen, pairwiseCmps, pairwiseCmp, htok, conjoin]

/-- The comparison loop started empty produces the left-associated
conjunction of the pairwise comparisons. -/
lemma compareLoop_start (ctx : SourceContext) (op : CmpOpKind) (ops : List CmpOpKind)
    (t t2 : TreeExpr) (ts : List TreeExpr) (hlen : ops.length = ts.length) :
    compareLoop ctx none (zip3 (t :: t2 :: ts) (op :: ops) (t2 :: ts)) =
      Except.ok (some (conjoin (pairwiseCmp ctx t t2 op) (pairwiseCmps ctx (t2 :: ts) ops))) := by
  obtain ⟨tok, htok⟩ := cmpop_map_total op
  rw [zip3, compareLoop, htok]
  by_cases hni : op = CmpOpKind.NotIn
  · subst hni
    simp [compareLoop_some ctx ops t2 ts, hlen, pairwiseCmp]
  · simp [hni, compareLoop_some ctx ops t2 ts, hlen, pairwiseCmp, htok]

/-- Unfolding `buildExtDims` at an `Index` dim that holds neither a tuple
nor a list literal. -/
lemma buildExtDims_cons_index (ctx : SourceContext) (b : TreeExpr) (iv : PyExpr)
    (ds : List PySlice) (h : isSeqIndexDim (.Index iv) = false) :
    buildExtDims ctx b (.Index iv :: ds) =
      (do
        let t ← build_expr ctx iv
        let ts ← buildExtDims ctx b ds
        pure (t :: ts)) := by
  cases iv <;> simp [isSeqIndexDim] at h <;> rw [buildExtDims] <;> simp

/-- An extended slice whose first dim is an `Index` holding a tuple or list
literal is rejected at once. -/
lemma buildExtDims_seq_head (ctx : SourceContext) (b : TreeExpr) (d : PySlice)
    (post : List PySlice) (hd : isSeqIndexDim d = true) :
    buildExtDims ctx b (d :: post) =
      Except.error (.notSupported (some b.range)
        "slicing multiple dimensions with sequences not supported yet") := by
  cases d with
  | Index iv => cases iv <;> simp [isSeqIndexDim] at hd <;> (rw [buildExtDims]; rfl)
  | Slice lower upper step => simp [isSeqIndexDim] at hd
  | ExtSlice dims => simp [isSeqIndexDim] at hd
  | EllipsisS => simp [isSeqIndexDim] at hd

/-- A successfully built prefix of extended-slice dims composes: building
the prefix followed by more dims prepends the prefix's results. -/
lemma buildExtDims_append (ctx : SourceContext) (b : TreeExpr) :
    ∀ (pre : List PySlice) (l : List TreeExpr) (rest : List PySlice),
      buildExtDims ctx b pre = Except.ok l →
      buildExtDims ctx b (pre ++ rest) =
        (buildExtDims ctx b rest).map (fun ts => l ++ ts) := by
  intro pre
  induction pre with
  | nil =>
      intro l rest hpre
      rw [buildExtDims] at hpre
      simp only [except_pure_eq_ok, Except.ok.injEq] at hpre
      subst hpre
      simp only [List.nil_append]
      cases h : buildExtDims ctx b rest <;> simp [h]
  | cons p ps ih =>
      intro l rest hpre
      simp only [List.cons_append]
      cases p with
      | Index iv =>
          by_cases hseq : isSeqIndexDim (.Index iv) = true
          · rw [buildExtDims_seq_head ctx b _ ps hseq] at hpre
            simp at hpre
          · rw [Bool.not_eq_true] at hseq
            rw [buildExtDims_cons_index ctx b iv ps hseq] at hpre
            rw [buildExtDims_cons_index ctx b iv (ps ++ rest) hseq]
            cases h1 : build_expr ctx iv with
            | error e => simp [h1] at hpre
            | ok t =>
                simp only [h1, except_bind_ok] at hpre ⊢
                cases h2 : buildExtDims ctx b ps with
                | error e => simp [h2] at hpre
                | ok ts =>
                    simp only [h2, except_bind_ok, except_pure_eq_ok,
                      Except.ok.injEq] at hpre
                    subst hpre
                    rw [ih ts rest h2]
                    cases h3 : buildExtDims ctx b rest <;> simp [h3]
      | Slice lower upper step =>
          rw [buildExtDims] at hpre
          rw [buildExtDims]
          cases h1 : buildOptExpr ctx lower with
          | error e => simp [h1] at hpre
          | ok lo =>
              simp only [h1, except_bind_ok] at hpre ⊢
              cases h2 : buildOptExpr ctx upper with
              | error e => simp [h2] at hpre
              | ok up =>
                  simp only [h2, except_bind_ok] at hpre ⊢
                  cases h3 : buildOptExpr ctx step with
                  | error e => simp [h3] at hpre
                  | ok st =>
                      simp only [h3, except_bind_ok] at hpre ⊢
                      cases h4 : buildExtDims ctx b ps with
                      | error e => simp [h4] at hpre
                      | ok ts =>
                          simp only [h4, except_bind_ok, except_pure_eq_ok,
                            Except.ok.injEq] at hpre
                          subst hpre
                          rw [ih ts rest h4]
                          cases h5 : buildExtDims ctx b rest <;> simp [h5]
      | ExtSlice dims =>
          rw [buildExtDims] at hpre
          simp at hpre
      | EllipsisS =>
          rw [buildExtDims] at hpre
          rw [buildExtDims]
          cases h2 : buildExtDims ctx b ps with
          | error e => simp [h2] at hpre
          | ok ts =>
              simp only [h2, except_bind_ok, except_pure_eq_ok, Except.ok.injEq] at hpre
              subst hpre
              rw [ih ts rest h2]
              cases h3 : buildExtDims ctx b rest <;> simp [h3]

/-- A position found by `strRIndex` for a single-character needle holds
that character. -/
lemma strRIndex_single (hay : List Char) (c : Char) (p : Nat)
    (h : strRIndex hay [c] = some p) : hay[p]? = some c := by
  unfold strRIndex at h
  have hpred := List.find?_some h
  rw [List.isPrefixOf_iff_prefix] at hpred
  obtain ⟨t, ht⟩ := hpred
  have h0 : (hay.drop p)[0]? = some c := by
    rw [← ht]
    simp
  rw [List.getElem?_drop, Nat.add_zero] at h0
  exact h0

/-- A hit inside a `take`-prefix is a hit in the full list, before the cut. -/
lemma getElem?_of_take {α : Type} (l : List α) (n p : Nat) (a : α)
    (h : (l.take n)[p]? = some a) : l[p]? = some a ∧ p < n := by
  have hlt : p < (l.take n).length := by
    by_contra hge
    rw [List.getElem?_eq_none (by omega)] at h
    exact Option.noConfusion h
  rw [List.length_take] at hlt
  have hpn : p < n := lt_of_lt_of_le hlt (min_le_left _ _)
  rw [List.getElem?_take_of_lt hpn] at h
  exact ⟨h, hpn⟩

/-- `checkKwDefaults` accepts a defaults list with no explicit default. -/
lemma checkKwDefaults_all_none (ctx : SourceContext) :
    ∀ ds : List (Option PyExpr), (∀ x ∈ ds, x = none) →
      checkKwDefaults ctx ds = Except.ok () := by
  intro ds
  induction ds with
  | nil => intro _; rw [checkKwDefaults]; rfl
  | cons d rest ih =>
      intro h
      have hd : d = none := h d (List.mem_cons_self d rest)
      subst hd
      rw [checkKwDefaults]
      exact ih (fun x hx => h x (List.mem_cons_of_mem _ hx))

/-- `checkKwDefaults` rejects at the first explicit default, at the built
default expression's range. -/
lemma checkKwDefaults_first_some (ctx : SourceContext) :
    ∀ (pre : List (Option PyExpr)) (d : PyExpr) (post : List (Option PyExpr)) (td : TreeExpr),
      (∀ x ∈ pre, x = none) →
      build_expr ctx d = Except.ok td →
      checkKwDefaults ctx (pre ++ some d :: post) =
        Except.error (.notSupported (some td.range) vararg_kwarg_err) := by
  intro pre
  induction pre with
  | nil =>
      intro d post td _ hd
      rw [List.nil_append, checkKwDefaults, hd]
      rfl
  | cons x rest ih =>
      intro d post td h hd
      have hx : x = none := h x (List.mem_cons_self x rest)
      subst hx
      rw [List.cons_append, checkKwDefaults]
      exact ih d post td (fun y hy => h y (List.mem_cons_of_mem _ hy)) hd

/-- `build_param` tags its result with exactly the keyword-only flag it was
given. -/
lemma build_param_flag (ctx : SourceContext) (a : PyArg) (sn : Option String) (k : Bool)
    (pa : Param) (h : build_param ctx a sn k = Except.ok pa) : pa.kwarg_only = k := by
  rw [build_param.eq_def] at h
  cases hanno : a.anno with
  | some ann =>
      rw [hanno] at h
      cases hb : build_expr ctx ann with
      | error e => simp [hb] at h
      | ok t =>
          simp [hb] at h
          subst h
          rfl
  | none =>
      rw [hanno] at h
      cases sn with
      | none =>
          simp at h
          subst h
          rfl
      | some s =>
          by_cases hself : a.arg = "self" <;> simp [hself] at h <;> subst h <;> rfl

/-- Every parameter built by `build_params` carries the given flag. -/
lemma build_params_flag (ctx : SourceContext) (sn : Option String) (k : Bool) :
    ∀ (l : List PyArg) (ps : List Param),
      build_params ctx sn k l = Except.ok ps → ∀ p ∈ ps, p.kwarg_only = k := by
  intro l
  induction l with
  | nil =>
      intro ps h p hp
      rw [build_params] at h
      simp only [except_pure_eq_ok, Except.ok.injEq] at h
      subst h
      exact absurd hp (List.not_mem_nil p)
  | cons a as ih =>
      intro ps h p hp
      rw [build_params] at h
      cases h1 : build_param ctx a sn k with
      | error e => rw [h1] at h; exact Except.noConfusion h
      | ok pa =>
          rw [h1] at h
          simp only [except_bind_ok] at h
          cases h2 : build_params ctx sn k as with
          | error e => rw [h2] at h; exact Except.noConfusion h
          | ok ps' =>
              rw [h2] at h
              simp only [except_bind_ok, except_pure_eq_ok, Except.ok.injEq] at h
              subst h
              rcases List.mem_cons.mp hp with hpa | hps'
              · subst hpa
                exact build_param_flag ctx a sn k p h1
              · exact ih ps' h2 p hps'

/-- A range made from a valid location with a positive token length starts
at the token, is non-empty, and stays within the text. -/
lemma make_range_ok (ctx : SourceContext) (loc : Loc) (k : Nat) (hk : 0 < k)
    (hv : ctx.offsetValid loc k) :
    rangeOkAt ctx (ctx.lineStart loc.lineno + loc.col)
      (ctx.make_range loc.lineno loc.col (loc.col + k)) := by
  unfold SourceContext.offsetValid at hv
  unfold rangeOkAt SourceContext.make_range
  dsimp only
  refine ⟨rfl, by omega, by omega⟩

/-! ### Claims -/

/-- Claim C10: a bare `raise` (no exception expression) produces no IR node
and none of the three documented diagnostic kinds: the handler builds the
absent expression unconditionally, the dispatcher's miss path reads
`.lineno` on `None`, and an `AttributeError` escapes the error taxonomy. -/
theorem claim_C10_bare_raise_escapes_taxonomy (ctx : SourceContext) (loc : Loc) :
    build_stmt ctx (.Raise loc none) =
      Except.error (.pyAttributeError "NoneType object has no attribute lineno") ∧
    (Err.pyAttributeError "NoneType object has no attribute lineno").isFrontendDiagnostic = false := by
  constructor
  · rw [build_stmt]
    simp [build_expr_opt]
  · rfl

/-- Claim C5 (code bug): the unary operators `not`, `-`, `~` translate to a
`UnaryOp` node, but any other unary operator (unary `+`) does NOT raise the
intended `NotSupported` diagnostic: `build_UnaryOp` computes
`len(op_token)` before its `op_token is None` check, so a Python
`TypeError` escapes instead.  Evaluated here at the failing input `+x`. -/
theorem claim_C5_unaryop_uadd_typeerror :
    build_expr ⟨"not x", true⟩ (.UnaryOpE ⟨1, 0⟩ .Not (.Name ⟨1, 4⟩ "x")) =
      Except.ok (.UnaryOp ⟨0, 3⟩ "not" (.Var ⟨⟨4, 5⟩, "x"⟩)) ∧
    build_expr ⟨"-x", true⟩ (.UnaryOpE ⟨1, 0⟩ .USub (.Name ⟨1, 1⟩ "x")) =
      Except.ok (.UnaryOp ⟨0, 1⟩ "-" (.Var ⟨⟨1, 2⟩, "x"⟩)) ∧
    build_expr ⟨"~x", true⟩ (.UnaryOpE ⟨1, 0⟩ .Invert (.Name ⟨1, 1⟩ "x")) =
      Except.ok (.UnaryOp ⟨0, 1⟩ "~" (.Var ⟨⟨1, 2⟩, "x"⟩)) ∧
    build_expr ⟨"+x", true⟩ (.UnaryOpE ⟨1, 0⟩ .UAdd (.Name ⟨1, 1⟩ "x")) =
      Except.error (.pyTypeError "object of type NoneType has no len()") ∧
    (Err.pyTypeError "object of type NoneType has no len()").isNotSupported = false := by
  refine ⟨?_, ?_, ?_, ?_, rfl⟩ <;>
    (simp [build_expr, build_Name, unop_map, SourceContext.make_range,
      SourceContext.lineStart, lineStartList, reservedPref]; rfl)

/-- Claim C4: a division whose context lacks the true-division flag raises a
semantic `FrontendError` — not a `NotSupported` error — whose range is the
gap between the end of the left operand's range and the start of the right
operand's, and whose message is the true-division opt-in explanation; with
the flag set, division becomes a `BinOp` with operator token `/`. -/
theorem claim_C4_division_semantics (ctx : SourceContext) (loc : Loc) (l r : PyExpr)
    (lt rt : TreeExpr)
    (hl : build_expr ctx l = Except.ok lt) (hr : build_expr ctx r = Except.ok rt) :
    (ctx.uses_true_division = false →
      build_expr ctx (.BinOpE loc l .Div r) =
        Except.error
          (.frontendError (ctx.make_raw_range lt.range.stop rt.range.start) divisionMsg) ∧
      (Err.frontendError (ctx.make_raw_range lt.range.stop rt.range.start)
          divisionMsg).isNotSupported = false) ∧
    (ctx.uses_true_division = true →
      build_expr ctx (.BinOpE loc l .Div r) = Except.ok (.BinOp "/" lt rt)) := by
  constructor
  · intro hdiv
    refine ⟨?_, rfl⟩
    rw [build_expr]
    simp [hl, hr, hdiv]
  · intro hdiv
    rw [build_expr]
    simp [hl, hr, hdiv, binop_map]

/-- Witness for C4 at `a / b` with and without the true-division flag. -/
theorem claim_C4_witness :
    build_expr ⟨"a / b", false⟩ (.BinOpE ⟨1, 2⟩ (.Name ⟨1, 0⟩ "a") .Div (.Name ⟨1, 4⟩ "b")) =
      Except.error (.frontendError ⟨1, 4⟩ divisionMsg) ∧
    build_expr ⟨"a / b", true⟩ (.BinOpE ⟨1, 2⟩ (.Name ⟨1, 0⟩ "a") .Div (.Name ⟨1, 4⟩ "b")) =
      Except.ok (.BinOp "/" (.Var ⟨⟨0, 1⟩, "a"⟩) (.Var ⟨⟨4, 5⟩, "b"⟩)) := by
  have hf := (claim_C4_division_semantics ⟨"a / b", false⟩ ⟨1, 2⟩ (.Name ⟨1, 0⟩ "a")
    (.Name ⟨1, 4⟩ "b") (.Var ⟨⟨0, 1⟩, "a"⟩) (.Var ⟨⟨4, 5⟩, "b"⟩)
    (by simp [build_expr, build_Name, SourceContext.make_range, SourceContext.lineStart,
      lineStartList, reservedPref]; rfl)
    (by simp [build_expr, build_Name, SourceContext.make_range, SourceContext.lineStart,
      lineStartList, reservedPref]; rfl)).1 rfl
  have ht := (claim_C4_division_semantics ⟨"a / b", true⟩ ⟨1, 2⟩ (.Name ⟨1, 0⟩ "a")
    (.Name ⟨1, 4⟩ "b") (.Var ⟨⟨0, 1⟩, "a"⟩) (.Var ⟨⟨4, 5⟩, "b"⟩)
    (by simp [build_expr, build_Name, SourceContext.make_range, SourceContext.lineStart,
      lineStartList, reservedPref]; rfl)
    (by simp [build_expr, build_Name, SourceContext.make_range, SourceContext.lineStart,
      lineStartList, reservedPref]; rfl)).2 rfl
  exact ⟨hf.1, ht⟩

/-- Claim C2: a boolean-operator chain with at least two operands and a
supported operator left-folds into nested `BinOp` nodes of that operator
(so `a or b or c` becomes `BinOp(or, BinOp(or, a, b), c)`); a chain with
fewer than two operands raises the handler's internal `AssertionError`,
which is not a frontend diagnostic at all. -/
theorem claim_C2_boolop_left_fold :
    (∀ (ctx : SourceContext) (loc : Loc) (op : BoolOpKind) (tok : String)
        (values : List PyExpr) (t : TreeExpr) (ts : List TreeExpr),
      boolop_map op = some tok →
      build_exprs ctx values = Except.ok (t :: ts) →
      2 ≤ values.length →
      build_expr ctx (.BoolOp loc op values) =
        Except.ok (ts.foldl (fun acc rhs => .BinOp tok acc rhs) t)) ∧
    (∀ (ctx : SourceContext) (loc : Loc) (op : BoolOpKind) (values : List PyExpr),
      values.length < 2 →
      build_expr ctx (.BoolOp loc op values) =
        Except.error (.pyAssertionError
          ("expected at least 2 values in BoolOp, but got " ++ toString values.length)) ∧
      (Err.pyAssertionError
          ("expected at least 2 values in BoolOp, but got " ++
            toString values.length)).isFrontendDiagnostic = false) := by
  constructor
  · intro ctx loc op tok values t ts htok hbuild hlen
    rw [build_expr]
    rw [if_neg (by omega)]
    simp [hbuild, htok]
  · intro ctx loc op values hlen
    refine ⟨?_, rfl⟩
    rw [build_expr]
    rw [if_pos hlen]
    rfl

/-- Witness for C2: `a or b or c` folds left; a one-operand chain is an
assertion error. -/
theorem claim_C2_witness :
    build_expr ⟨"a or b or c", true⟩
        (.BoolOp ⟨1, 0⟩ .Or [.Name ⟨1, 0⟩ "a", .Name ⟨1, 5⟩ "b", .Name ⟨1, 10⟩ "c"]) =
      Except.ok (.BinOp "or" (.BinOp "or" (.Var ⟨⟨0, 1⟩, "a"⟩) (.Var ⟨⟨5, 6⟩, "b"⟩))
        (.Var ⟨⟨10, 11⟩, "c"⟩)) ∧
    build_expr ⟨"a", true⟩ (.BoolOp ⟨1, 0⟩ .Or [.Name ⟨1, 0⟩ "a"]) =
      Except.error (.pyAssertionError "expected at least 2 values in BoolOp, but got 1") := by
  constructor
  · have h := claim_C2_boolop_left_fold.1 ⟨"a or b or c", true⟩ ⟨1, 0⟩ .Or "or"
      [.Name ⟨1, 0⟩ "a", .Name ⟨1, 5⟩ "b", .Name ⟨1, 10⟩ "c"]
      (.Var ⟨⟨0, 1⟩, "a"⟩) [.Var ⟨⟨5, 6⟩, "b"⟩, .Var ⟨⟨10, 11⟩, "c"⟩] rfl
      (by simp [build_exprs, build_expr, build_Name, SourceContext.make_range,
        SourceContext.lineStart, lineStartList, reservedPref]; rfl)
      (by simp)
    simpa using h
  · have h := (claim_C2_boolop_left_fold.2 ⟨"a", true⟩ ⟨1, 0⟩ .Or [.Name ⟨1, 0⟩ "a"]
      (by simp)).1
    simpa using h

/-- Claim C1: a comparison chain whose operators are all supported desugars
into the left-associated conjunction (`conjoin`, folded with logical `and`)
of the pairwise comparisons of adjacent operands (`pairwiseCmps`), where a
`not in` comparison is the logical negation of an `in` comparison
(`pairwiseCmp`). -/
theorem claim_C1_compare_chain_desugar (ctx : SourceContext) (loc : Loc)
    (left c0 : PyExpr) (op0 : CmpOpKind) (opsR : List CmpOpKind) (compsR : List PyExpr)
    (lt ct0 : TreeExpr) (ctsR : List TreeExpr)
    (hleft : build_expr ctx left = Except.ok lt)
    (hcomps : build_exprs ctx (c0 :: compsR) = Except.ok (ct0 :: ctsR))
    (hlen : opsR.length = compsR.length) :
    build_expr ctx (.Compare loc left (op0 :: opsR) (c0 :: compsR)) =
      Except.ok (conjoin (pairwiseCmp ctx lt ct0 op0) (pairwiseCmps ctx (ct0 :: ctsR) opsR)) := by
  have hlen' : opsR.length = ctsR.length := by
    have := build_exprs_length ctx (c0 :: compsR) (ct0 :: ctsR) hcomps
    simp only [List.length_cons, Nat.add_right_cancel_iff] at this
    omega
  rw [build_expr, hleft]
  simp only [except_bind_ok, hcomps]
  rw [compareLoop_start ctx op0 opsR lt ct0 ctsR hlen']
  rfl

/-- Witness for C1: `a < b < c` and `a not in b`. -/
theorem claim_C1_witness :
    build_expr ⟨"a < b < c", true⟩ (.Compare ⟨1, 0⟩ (.Name ⟨1, 0⟩ "a") [.Lt, .Lt]
        [.Name ⟨1, 4⟩ "b", .Name ⟨1, 8⟩ "c"]) =
      Except.ok (.BinOp "and" (.BinOp "<" (.Var ⟨⟨0, 1⟩, "a"⟩) (.Var ⟨⟨4, 5⟩, "b"⟩))
        (.BinOp "<" (.Var ⟨⟨4, 5⟩, "b"⟩) (.Var ⟨⟨8, 9⟩, "c"⟩))) ∧
    build_expr ⟨"a not in b", true⟩ (.Compare ⟨1, 0⟩ (.Name ⟨1, 0⟩ "a") [.NotIn]
        [.Name ⟨1, 9⟩ "b"]) =
      Except.ok (.UnaryOp ⟨1, 9⟩ "not"
        (.BinOp "in" (.Var ⟨⟨0, 1⟩, "a"⟩) (.Var ⟨⟨9, 10⟩, "b"⟩))) := by
  constructor
  · have h := claim_C1_compare_chain_desugar ⟨"a < b < c", true⟩ ⟨1, 0⟩
      (.Name ⟨1, 0⟩ "a") (.Name ⟨1, 4⟩ "b") .Lt [.Lt] [.Name ⟨1, 8⟩ "c"]
      (.Var ⟨⟨0, 1⟩, "a"⟩) (.Var ⟨⟨4, 5⟩, "b"⟩) [.Var ⟨⟨8, 9⟩, "c"⟩]
      (by simp [build_expr, build_Name, SourceContext.make_range, SourceContext.lineStart,
        lineStartList, reservedPref]; rfl)
      (by simp [build_exprs, build_expr, build_Name, SourceContext.make_range,
        SourceContext.lineStart, lineStartList, reservedPref]; rfl)
      rfl
    simpa [conjoin, pairwiseCmps, pairwiseCmp, cmpop_map, TreeExpr.range,
      SourceContext.make_raw_range] using h
  · have h := claim_C1_compare_chain_desugar ⟨"a not in b", true⟩ ⟨1, 0⟩
      (.Name ⟨1, 0⟩ "a") (.Name ⟨1, 9⟩ "b") .NotIn [] []
      (.Var ⟨⟨0, 1⟩, "a"⟩) (.Var ⟨⟨9, 10⟩, "b"⟩) []
      (by simp [build_expr, build_Name, SourceContext.make_range, SourceContext.lineStart,
        lineStartList, reservedPref]; rfl)
      (by simp [build_exprs, build_expr, build_Name, SourceContext.make_range,
        SourceContext.lineStart, lineStartList, reservedPref]; rfl)
      rfl
    simpa [conjoin, pairwiseCmps, pairwiseCmp, cmpop_map, TreeExpr.range,
      SourceContext.make_raw_range] using h

/-- Claim C6: an expression-statement holding a bare string literal is a
docstring: its handler returns nothing, `build_stmts` drops it, and the
translated body equals the translation without it (one element shorter than
a naive translation); any other expression-statement is wrapped in an
`ExprStmt` node. -/
theorem claim_C6_docstring_dropped :
    (∀ (ctx : SourceContext) (loc sloc : Loc) (s : String) (rest : List PyStmt),
      build_stmt ctx (.Expr loc (.Str sloc s)) = Except.ok none ∧
      build_stmts ctx (.Expr loc (.Str sloc s) :: rest) = build_stmts ctx rest ∧
      (∀ ts, build_stmts ctx rest = Except.ok ts →
        build_stmts ctx (.Expr loc (.Str sloc s) :: rest) = Except.ok ts)) ∧
    (∀ (ctx : SourceContext) (loc : Loc) (value : PyExpr) (t : TreeExpr),
      value.isStrLit = false →
      build_expr ctx value = Except.ok t →
      build_stmt ctx (.Expr loc value) = Except.ok (some (.ExprStmt t))) := by
  constructor
  · intro ctx loc sloc s rest
    have hdrop : build_stmt ctx (.Expr loc (.Str sloc s)) = Except.ok none := by
      rw [build_stmt]; rfl
    have heq : build_stmts ctx (.Expr loc (.Str sloc s) :: rest) = build_stmts ctx rest := by
      rw [build_stmts, hdrop]
      cases h : build_stmts ctx rest <;> simp [h]
    exact ⟨hdrop, heq, fun ts hts => by rw [heq, hts]⟩
  · intro ctx loc value t hstr hbuild
    cases value <;> simp_all [build_stmt, PyExpr.isStrLit]

/-- Witness for C6: a docstring statement followed by `pass` translates to
just the `pass`, and `x` as an expression-statement is wrapped. -/
theorem claim_C6_witness :
    build_stmts ⟨"d\npass", true⟩ [.Expr ⟨1, 0⟩ (.Str ⟨1, 0⟩ "d"), .Pass ⟨2, 0⟩] =
      Except.ok [.Pass ⟨2, 6⟩] ∧
    build_stmt ⟨"x", true⟩ (.Expr ⟨1, 0⟩ (.Name ⟨1, 0⟩ "x")) =
      Except.ok (some (.ExprStmt (.Var ⟨⟨0, 1⟩, "x"⟩))) := by
  constructor
  · have h := ((claim_C6_docstring_dropped.1 ⟨"d\npass", true⟩ ⟨1, 0⟩ ⟨1, 0⟩ "d"
      [.Pass ⟨2, 0⟩]).2.2) [.Pass ⟨2, 6⟩]
      (by simp [build_stmts, build_stmt, SourceContext.make_range, SourceContext.lineStart,
        lineStartList]; rfl)
    exact h
  · exact claim_C6_docstring_dropped.2 ⟨"x", true⟩ ⟨1, 0⟩ (.Name ⟨1, 0⟩ "x")
      (.Var ⟨⟨0, 1⟩, "x"⟩) rfl
      (by simp [build_expr, build_Name, SourceContext.make_range, SourceContext.lineStart,
        lineStartList, reservedPref]; rfl)

/-- Claim C3: a tuple literal used directly as a plain subscript index is
flattened into one `Subscript` node with one index sub-expression per tuple
element (`x[(i, j)]` is `x[i, j]`); a tuple or list literal appearing as an
index component anywhere inside an extended slice is rejected with
`NotSupported`. -/
theorem claim_C3_tuple_index_flattening :
    (∀ (ctx : SourceContext) (loc tloc : Loc) (v : PyExpr) (elts : List PyExpr)
        (tb : TreeExpr) (ts : List TreeExpr),
      build_expr ctx v = Except.ok tb →
      build_exprs ctx elts = Except.ok ts →
      build_expr ctx (.SubscriptE loc v (.Index (.TupleE tloc elts))) =
        Except.ok (.Subscript tb ts) ∧
      ts.length = elts.length) ∧
    (∀ (ctx : SourceContext) (loc : Loc) (v : PyExpr) (pre : List PySlice) (d : PySlice)
        (post : List PySlice) (tb : TreeExpr) (l : List TreeExpr),
      build_expr ctx v = Except.ok tb →
      buildExtDims ctx tb pre = Except.ok l →
      isSeqIndexDim d = true →
      build_expr ctx (.SubscriptE loc v (.ExtSlice (pre ++ d :: post))) =
        Except.error (.notSupported (some tb.range)
          "slicing multiple dimensions with sequences not supported yet")) := by
  constructor
  · intro ctx loc tloc v elts tb ts hv helts
    constructor
    · rw [build_expr, hv]
      simp [helts]
    · exact build_exprs_length ctx elts ts helts
  · intro ctx loc v pre d post tb l hv hpre hd
    rw [build_expr, hv]
    simp only [except_bind_ok]
    rw [buildExtDims_append ctx tb pre l (d :: post) hpre,
      buildExtDims_seq_head ctx tb d post hd]
    rfl

/-- Witness for C3: `x[(i, j)]` flattens to a two-index subscript; a list
literal and a tuple literal nested in an extended slice are each rejected. -/
theorem claim_C3_witness :
    build_expr ⟨"x[(i, j)]", true⟩ (.SubscriptE ⟨1, 0⟩ (.Name ⟨1, 0⟩ "x")
        (.Index (.TupleE ⟨1, 2⟩ [.Name ⟨1, 3⟩ "i", .Name ⟨1, 6⟩ "j"]))) =
      Except.ok (.Subscript (.Var ⟨⟨0, 1⟩, "x"⟩)
        [.Var ⟨⟨3, 4⟩, "i"⟩, .Var ⟨⟨6, 7⟩, "j"⟩]) ∧
    build_expr ⟨"x[[1], :]", true⟩ (.SubscriptE ⟨1, 0⟩ (.Name ⟨1, 0⟩ "x")
        (.ExtSlice [.Index (.ListE ⟨1, 2⟩ [.Num ⟨1, 3⟩ "1"]), .Slice none none none])) =
      Except.error (.notSupported (some ⟨0, 1⟩)
        "slicing multiple dimensions with sequences not supported yet") ∧
    build_expr ⟨"x[:, (1,)]", true⟩ (.SubscriptE ⟨1, 0⟩ (.Name ⟨1, 0⟩ "x")
        (.ExtSlice [.Slice none none none, .Index (.TupleE ⟨1, 5⟩ [.Num ⟨1, 6⟩ "1"])])) =
      Except.error (.notSupported (some ⟨0, 1⟩)
        "slicing multiple dimensions with sequences not supported yet") := by
  refine ⟨?_, ?_, ?_⟩
  · exact (claim_C3_tuple_index_flattening.1 ⟨"x[(i, j)]", true⟩ ⟨1, 0⟩ ⟨1, 2⟩
      (.Name ⟨1, 0⟩ "x") [.Name ⟨1, 3⟩ "i", .Name ⟨1, 6⟩ "j"]
      (.Var ⟨⟨0, 1⟩, "x"⟩) [.Var ⟨⟨3, 4⟩, "i"⟩, .Var ⟨⟨6, 7⟩, "j"⟩]
      (by simp [build_expr, build_Name, SourceContext.make_range, SourceContext.lineStart,
        lineStartList, reservedPref]; rfl)
      (by simp [build_exprs, build_expr, build_Name, SourceContext.make_range,
        SourceContext.lineStart, lineStartList, reservedPref]; rfl)).1
  · have h := claim_C3_tuple_index_flattening.2 ⟨"x[[1], :]", true⟩ ⟨1, 0⟩
      (.Name ⟨1, 0⟩ "x") [] (.Index (.ListE ⟨1, 2⟩ [.Num ⟨1, 3⟩ "1"]))
      [.Slice none none none] (.Var ⟨⟨0, 1⟩, "x"⟩) []
      (by simp [build_expr, build_Name, SourceContext.make_range, SourceContext.lineStart,
        lineStartList, reservedPref]; rfl)
      (by rw [buildExtDims]; rfl) rfl
    simpa [TreeExpr.range] using h
  · have h := claim_C3_tuple_index_flattening.2 ⟨"x[:, (1,)]", true⟩ ⟨1, 0⟩
      (.Name ⟨1, 0⟩ "x") [.Slice none none none] (.Index (.TupleE ⟨1, 5⟩ [.Num ⟨1, 6⟩ "1"]))
      [] (.Var ⟨⟨0, 1⟩, "x"⟩) [.SliceExpr ⟨0, 1⟩ none none none]
      (by simp [build_expr, build_Name, SourceContext.make_range, SourceContext.lineStart,
        lineStartList, reservedPref]; rfl)
      (by rw [buildExtDims]; simp [buildOptExpr, buildExtDims, TreeExpr.range]) rfl
    simpa [TreeExpr.range] using h

/-- Claim C7: augmented assignment accepts exactly `+= -= *= /= %=`; any
other operator raises `NotSupported` whose range comes from scanning the
raw source text backwards from the built right-hand side's start offset for
the nearest `=` character, and that range covers the `=` (position `p`
holds `=` and `p - 1 ≤ p < p + 1` places it inside the `[p-1, p+1)`
range). -/
theorem claim_C7_augassign_operators :
    (∀ (ctx : SourceContext) (loc : Loc) (target value : PyExpr) (op : BinOpKind)
        (tok : String) (lt rt : TreeExpr),
      augassign_map op = some tok →
      build_expr ctx target = Except.ok lt →
      build_expr ctx value = Except.ok rt →
      build_stmt ctx (.AugAssign loc target op value) =
        Except.ok (some (.AugAssign lt tok rt))) ∧
    (∀ (ctx : SourceContext) (loc : Loc) (target value : PyExpr) (op : BinOpKind)
        (lt rt : TreeExpr) (p : Nat),
      augassign_map op = none →
      build_expr ctx target = Except.ok lt →
      build_expr ctx value = Except.ok rt →
      strRIndex (ctx.source.toList.take rt.range.start) ['='] = some p →
      build_stmt ctx (.AugAssign loc target op value) =
        Except.error (.notSupported (some ⟨p - 1, p + 1⟩)
          ("unsupported kind of augumented assignment: " ++ BinOpKind.pyName op)) ∧
      ctx.source.toList[p]? = some '=' ∧
      p < rt.range.start ∧
      p - 1 ≤ p ∧ p < p + 1) := by
  constructor
  · intro ctx loc target value op tok lt rt htok hl hr
    rw [build_stmt]
    simp [hl, hr, htok]
  · intro ctx loc target value op lt rt p hop hl hr hfind
    have hchar := strRIndex_single _ '=' p hfind
    have hget := getElem?_of_take ctx.source.toList rt.range.start p '=' hchar
    refine ⟨?_, hget.1, hget.2, Nat.sub_le p 1, Nat.lt_succ_self p⟩
    rw [build_stmt]
    simp only [hl, hr, except_bind_ok, hop]
    have htl : ("=" : String).toList = ['='] := rfl
    rw [find_before, htl, hfind]
    simp only [except_bind_ok, except_pure_eq_ok, except_throw_eq_error, Except.error.injEq,
      Err.notSupported.injEq, Option.some.injEq]
    constructor
    · show SourceContext.make_raw_range ctx _ _ = _
      rw [SourceContext.make_raw_range]
      have h1 : ((p : Int) + (-1)).toNat = p - 1 := by omega
      have h2 : ((p : Int) + (("=" : String).length : Nat) + 0).toNat = p + 1 := by
        have : ("=" : String).length = 1 := rfl
        omega
      rw [Range.mk.injEq]
      constructor
      · exact h1
      · simpa using h2
    · trivial

/-- Witness for C7: `x += 1` is accepted, and `x **= 2` raises
`NotSupported` whose range `[3, 5)` covers the `=` of `**=` at offset 4. -/
theorem claim_C7_witness :
    build_stmt ⟨"x += 1", true⟩ (.AugAssign ⟨1, 0⟩ (.Name ⟨1, 0⟩ "x") .Add (.Num ⟨1, 5⟩ "1")) =
      Except.ok (some (.AugAssign (.Var ⟨⟨0, 1⟩, "x"⟩) "+" (.Const ⟨5, 6⟩ "1"))) ∧
    build_stmt ⟨"x **= 2", true⟩ (.AugAssign ⟨1, 0⟩ (.Name ⟨1, 0⟩ "x") .Pow (.Num ⟨1, 6⟩ "2")) =
      Except.error (.notSupported (some ⟨3, 5⟩)
        "unsupported kind of augumented assignment: Pow") ∧
    ("x **= 2").toList[4]? = some '=' := by
  refine ⟨?_, ?_, by decide⟩
  · exact claim_C7_augassign_operators.1 ⟨"x += 1", true⟩ ⟨1, 0⟩ (.Name ⟨1, 0⟩ "x")
      (.Num ⟨1, 5⟩ "1") .Add "+" (.Var ⟨⟨0, 1⟩, "x"⟩) (.Const ⟨5, 6⟩ "1") rfl
      (by simp [build_expr, build_Name, SourceContext.make_range, SourceContext.lineStart,
        lineStartList, reservedPref]; rfl)
      (by simp [build_expr, build_Num, SourceContext.make_range, SourceContext.lineStart,
        lineStartList]; rfl)
  · have h := (claim_C7_augassign_operators.2 ⟨"x **= 2", true⟩ ⟨1, 0⟩ (.Name ⟨1, 0⟩ "x")
      (.Num ⟨1, 6⟩ "2") .Pow (.Var ⟨⟨0, 1⟩, "x"⟩) (.Const ⟨6, 7⟩ "2") 4 rfl
      (by simp [build_expr, build_Name, SourceContext.make_range, SourceContext.lineStart,
        lineStartList, reservedPref]; rfl)
      (by simp [build_expr, build_Num, SourceContext.make_range, SourceContext.lineStart,
        lineStartList]; rfl)
      (by decide)).1
    simpa using h

/-- Claim C8: variadic keyword (`**kwargs`) and variadic positional
(`*args`) parameters raise `NotSupported` with a range covering the
parameter's name span; a keyword-only parameter with a default raises
`NotSupported` at the default expression's range; a list with only ordinary
and non-defaulted keyword-only parameters yields one ordered list, ordinary
parameters first, each entry tagged with the keyword-only flag. -/
theorem claim_C8_param_list :
    (∀ (ctx : SourceContext) (py_args : PyArguments) (e : PyArg) (self_name : Option String),
      py_args.kwarg = some e →
      build_param_list ctx py_args self_name =
        Except.error (.notSupported
          (some (ctx.make_range e.loc.lineno (e.loc.col - 1) (e.loc.col + e.arg.length)))
          vararg_kwarg_err) ∧
      (ctx.make_range e.loc.lineno (e.loc.col - 1) (e.loc.col + e.arg.length)).start ≤
        (ctx.make_range e.loc.lineno e.loc.col (e.loc.col + e.arg.length)).start ∧
      (ctx.make_range e.loc.lineno e.loc.col (e.loc.col + e.arg.length)).stop ≤
        (ctx.make_range e.loc.lineno (e.loc.col - 1) (e.loc.col + e.arg.length)).stop) ∧
    (∀ (ctx : SourceContext) (py_args : PyArguments) (e : PyArg) (self_name : Option String),
      py_args.kwarg = none →
      py_args.vararg = some e →
      build_param_list ctx py_args self_name =
        Except.error (.notSupported
          (some (ctx.make_range e.loc.lineno (e.loc.col - 1) (e.loc.col + e.arg.length)))
          vararg_kwarg_err) ∧
      (ctx.make_range e.loc.lineno (e.loc.col - 1) (e.loc.col + e.arg.length)).start ≤
        (ctx.make_range e.loc.lineno e.loc.col (e.loc.col + e.arg.length)).start ∧
      (ctx.make_range e.loc.lineno e.loc.col (e.loc.col + e.arg.length)).stop ≤
        (ctx.make_range e.loc.lineno (e.loc.col - 1) (e.loc.col + e.arg.length)).stop) ∧
    (∀ (ctx : SourceContext) (py_args : PyArguments) (self_name : Option String)
        (pre : List (Option PyExpr)) (d : PyExpr) (post : List (Option PyExpr)) (td : TreeExpr),
      py_args.kwarg = none →
      py_args.vararg = none →
      py_args.kw_defaults = pre ++ some d :: post →
      (∀ x ∈ pre, x = none) →
      build_expr ctx d = Except.ok td →
      build_param_list ctx py_args self_name =
        Except.error (.notSupported (some td.range) vararg_kwarg_err)) ∧
    (∀ (ctx : SourceContext) (py_args : PyArguments) (self_name : Option String)
        (ps1 ps2 : List Param),
      py_args.kwarg = none →
      py_args.vararg = none →
      (∀ x ∈ py_args.kw_defaults, x = none) →
      build_params ctx self_name false py_args.args = Except.ok ps1 →
      build_params ctx self_name true py_args.kwonlyargs = Except.ok ps2 →
      build_param_list ctx py_args self_name = Except.ok (ps1 ++ ps2) ∧
      (∀ p ∈ ps1, p.kwarg_only = false) ∧
      (∀ p ∈ ps2, p.kwarg_only = true)) := by
  refine ⟨?_, ?_, ?_, ?_⟩
  · intro ctx py_args e self_name hkw
    refine ⟨?_, ?_, ?_⟩
    · rw [build_param_list.eq_def, hkw]
      rfl
    · simp [SourceContext.make_range]
    · simp [SourceContext.make_range]
  · intro ctx py_args e self_name hkw hva
    refine ⟨?_, ?_, ?_⟩
    · rw [build_param_list.eq_def, hkw, hva]
      rfl
    · simp [SourceContext.make_range]
    · simp [SourceContext.make_range]
  · intro ctx py_args self_name pre d post td hkw hva hdef hpre hd
    rw [build_param_list.eq_def, hkw, hva, hdef,
      checkKwDefaults_first_some ctx pre d post td hpre hd]
    rfl
  · intro ctx py_args self_name ps1 ps2 hkw hva hnone hp1 hp2
    refine ⟨?_, build_params_flag ctx self_name false _ ps1 hp1,
      build_params_flag ctx self_name true _ ps2 hp2⟩
    rw [build_param_list.eq_def, hkw, hva, checkKwDefaults_all_none ctx _ hnone]
    simp [hp1, hp2]

/-- Witness for C8 on `def f(x, *, y)`-style shapes plus the three rejected
shapes. -/
theorem claim_C8_witness :
    build_param_list ⟨"def f(**kwargs): pass", true⟩
        ⟨[], none, [], [], some ⟨⟨1, 8⟩, "kwargs", none⟩⟩ none =
      Except.error (.notSupported (some ⟨7, 14⟩) vararg_kwarg_err) ∧
    build_param_list ⟨"def f(*args): pass", true⟩
        ⟨[], some ⟨⟨1, 7⟩, "args", none⟩, [], [], none⟩ none =
      Except.error (.notSupported (some ⟨6, 11⟩) vararg_kwarg_err) ∧
    build_param_list ⟨"def f(*, y=1): pass", true⟩
        ⟨[], none, [⟨⟨1, 9⟩, "y", none⟩], [some (.Num ⟨1, 11⟩ "1")], none⟩ none =
      Except.error (.notSupported (some ⟨11, 12⟩) vararg_kwarg_err) ∧
    build_param_list ⟨"def f(x, *, y): pass", true⟩
        ⟨[⟨⟨1, 6⟩, "x", none⟩], none, [⟨⟨1, 12⟩, "y", none⟩], [none], none⟩ none =
      Except.ok [⟨.EmptyTypeAnno ⟨6, 7⟩, ⟨⟨6, 7⟩, "x"⟩, false⟩,
        ⟨.EmptyTypeAnno ⟨12, 13⟩, ⟨⟨12, 13⟩, "y"⟩, true⟩] := by
  refine ⟨?_, ?_, ?_, ?_⟩
  · have h := (claim_C8_param_list.1 ⟨"def f(**kwargs): pass", true⟩
      ⟨[], none, [], [], some ⟨⟨1, 8⟩, "kwargs", none⟩⟩ ⟨⟨1, 8⟩, "kwargs", none⟩ none rfl).1
    simpa [SourceContext.make_range, SourceContext.lineStart, lineStartList] using h
  · have h := (claim_C8_param_list.2.1 ⟨"def f(*args): pass", true⟩
      ⟨[], some ⟨⟨1, 7⟩, "args", none⟩, [], [], none⟩ ⟨⟨1, 7⟩, "args", none⟩ none rfl rfl).1
    simpa [SourceContext.make_range, SourceContext.lineStart, lineStartList] using h
  · have h := claim_C8_param_list.2.2.1 ⟨"def f(*, y=1): pass", true⟩
      ⟨[], none, [⟨⟨1, 9⟩, "y", none⟩], [some (.Num ⟨1, 11⟩ "1")], none⟩ none
      [] (.Num ⟨1, 11⟩ "1") [] (.Const ⟨11, 12⟩ "1") rfl rfl rfl (by simp)
      (by simp [build_expr, build_Num, SourceContext.make_range, SourceContext.lineStart,
        lineStartList]; rfl)
    simpa [TreeExpr.range] using h
  · have h := (claim_C8_param_list.2.2.2 ⟨"def f(x, *, y): pass", true⟩
      ⟨[⟨⟨1, 6⟩, "x", none⟩], none, [⟨⟨1, 12⟩, "y", none⟩], [none], none⟩ none
      [⟨.EmptyTypeAnno ⟨6, 7⟩, ⟨⟨6, 7⟩, "x"⟩, false⟩]
      [⟨.EmptyTypeAnno ⟨12, 13⟩, ⟨⟨12, 13⟩, "y"⟩, true⟩] rfl rfl (by simp)
      (by simp [build_params, build_param, SourceContext.make_range, SourceContext.lineStart,
        lineStartList]; rfl)
      (by simp [build_params, build_param, SourceContext.make_range, SourceContext.lineStart,
        lineStartList]; rfl)).1
    simpa using h

/-- Counterexample to claim C9 as stated: the list-comprehension handler
attaches the range `make_range(lineno, col_offset, col_offset)` — an EMPTY
range (start = stop), refuting "start offset strictly less than end offset"
for a supported expression kind. -/
theorem claim_C9_counterexample :
    build_expr ⟨"[x for x in y]", true⟩ (.ListCompE ⟨1, 0⟩ (.Name ⟨1, 1⟩ "x")
        [.mk (.Name ⟨1, 7⟩ "x") (.Name ⟨1, 12⟩ "y") []]) =
      Except.ok (.ListComp ⟨0, 0⟩ (.Var ⟨⟨1, 2⟩, "x"⟩) (.Var ⟨⟨7, 8⟩, "x"⟩)
        (.Var ⟨⟨12, 13⟩, "y"⟩)) ∧
    (Range.mk 0 0).start = (Range.mk 0 0).stop := by
  refine ⟨?_, rfl⟩
  rw [build_expr]
  simp [build_Name, SourceContext.make_range, SourceContext.lineStart, lineStartList,
    reservedPref, build_expr]
  rfl

/-- Claim C9 (amended): for every supported statement and expression kind
whose handler attaches a range directly from the node's own location, the
attached range is non-empty, lies within the source unit's text, and starts
at the grammar-supplied token — EXCEPT the list-comprehension handler,
whose attached range is empty (start = stop) at the expression's start
token.  (Nodes such as plain assignments, binary ops or calls are created
without a range of their own; their range is derived by the external
tree-view library from their children and is outside this code.)  Each
location hypothesis `offsetValid` states that the node's grammar location
plus the token length resolves inside the unit's text. -/
theorem claim_C9_attached_ranges :
    -- return statement
    (∀ (ctx : SourceContext) (loc : Loc) (v : Option PyExpr) (res : TreeStmt),
      ctx.offsetValid loc ("return").length →
      build_stmt ctx (.Return loc v) = Except.ok (some res) →
      ∃ v', res = .Return (ctx.make_range loc.lineno loc.col (loc.col + ("return").length)) v' ∧
        rangeOkAt ctx (ctx.lineStart loc.lineno + loc.col)
          (ctx.make_range loc.lineno loc.col (loc.col + ("return").length))) ∧
    -- raise statement
    (∀ (ctx : SourceContext) (loc : Loc) (exc : Option PyExpr) (res : TreeStmt),
      ctx.offsetValid loc ("raise").length →
      build_stmt ctx (.Raise loc exc) = Except.ok (some res) →
      ∃ e, res = .Raise (ctx.make_range loc.lineno loc.col (loc.col + ("raise").length)) e ∧
        rangeOkAt ctx (ctx.lineStart loc.lineno + loc.col)
          (ctx.make_range loc.lineno loc.col (loc.col + ("raise").length))) ∧
    -- assert statement
    (∀ (ctx : SourceContext) (loc : Loc) (test : PyExpr) (msg : Option PyExpr) (res : TreeStmt),
      ctx.offsetValid loc ("assert").length →
      build_stmt ctx (.Assert loc test msg) = Except.ok (some res) →
      ∃ t m, res = .Assert (ctx.make_range loc.lineno loc.col (loc.col + ("assert").length)) t m ∧
        rangeOkAt ctx (ctx.lineStart loc.lineno + loc.col)
          (ctx.make_range loc.lineno loc.col (loc.col + ("assert").length))) ∧
    -- while statement
    (∀ (ctx : SourceContext) (loc : Loc) (test : PyExpr) (body orelse : List PyStmt)
        (res : TreeStmt),
      ctx.offsetValid loc ("while").length →
      build_stmt ctx (.While loc test body orelse) = Except.ok (some res) →
      ∃ t b, res = .While (ctx.make_range loc.lineno loc.col (loc.col + ("while").length)) t b ∧
        rangeOkAt ctx (ctx.lineStart loc.lineno + loc.col)
          (ctx.make_range loc.lineno loc.col (loc.col + ("while").length))) ∧
    -- for statement
    (∀ (ctx : SourceContext) (loc : Loc) (target iter : PyExpr) (body orelse : List PyStmt)
        (res : TreeStmt),
      ctx.offsetValid loc ("for").length →
      build_stmt ctx (.For loc target iter body orelse) = Except.ok (some res) →
      ∃ t i b, res = .For (ctx.make_range loc.lineno loc.col (loc.col + ("for").length))
          [t] [i] b ∧
        rangeOkAt ctx (ctx.lineStart loc.lineno + loc.col)
          (ctx.make_range loc.lineno loc.col (loc.col + ("for").length))) ∧
    -- if statement
    (∀ (ctx : SourceContext) (loc : Loc) (test : PyExpr) (body orelse : List PyStmt)
        (res : TreeStmt),
      ctx.offsetValid loc ("if").length →
      build_stmt ctx (.If loc test body orelse) = Except.ok (some res) →
      ∃ t b e, res = .If (ctx.make_range loc.lineno loc.col (loc.col + ("if").length)) t b e ∧
        rangeOkAt ctx (ctx.lineStart loc.lineno + loc.col)
          (ctx.make_range loc.lineno loc.col (loc.col + ("if").length))) ∧
    -- pass, break, continue statements
    (∀ (ctx : SourceContext) (loc : Loc),
      ctx.offsetValid loc ("pass").length →
      build_stmt ctx (.Pass loc) =
        Except.ok (some (.Pass (ctx.make_range loc.lineno loc.col (loc.col + ("pass").length)))) ∧
      rangeOkAt ctx (ctx.lineStart loc.lineno + loc.col)
        (ctx.make_range loc.lineno loc.col (loc.col + ("pass").length))) ∧
    (∀ (ctx : SourceContext) (loc : Loc),
      ctx.offsetValid loc ("break").length →
      build_stmt ctx (.Break loc) =
        Except.ok (some (.Break (ctx.make_range loc.lineno loc.col (loc.col + ("break").length)))) ∧
      rangeOkAt ctx (ctx.lineStart loc.lineno + loc.col)
        (ctx.make_range loc.lineno loc.col (loc.col + ("break").length))) ∧
    (∀ (ctx : SourceContext) (loc : Loc),
      ctx.offsetValid loc ("continue").length →
      build_stmt ctx (.Continue loc) =
        Except.ok (some (.Continue
          (ctx.make_range loc.lineno loc.col (loc.col + ("continue").length)))) ∧
      rangeOkAt ctx (ctx.lineStart loc.lineno + loc.col)
        (ctx.make_range loc.lineno loc.col (loc.col + ("continue").length))) ∧
    -- with statement
    (∀ (ctx : SourceContext) (loc : Loc) (items : List PyWithItem) (body : List PyStmt)
        (res : TreeStmt),
      ctx.offsetValid loc ("with").length →
      build_stmt ctx (.With loc items body) = Except.ok (some res) →
      ∃ its b, res = .With (ctx.make_range loc.lineno loc.col (loc.col + ("with").length)) its b ∧
        rangeOkAt ctx (ctx.lineStart loc.lineno + loc.col)
          (ctx.make_range loc.lineno loc.col (loc.col + ("with").length))) ∧
    -- ellipsis literal (fixed three-character range)
    (∀ (ctx : SourceContext) (loc : Loc),
      ctx.offsetValid loc 3 →
      build_expr ctx (.EllipsisE loc) =
        Except.ok (.Dots (ctx.make_range loc.lineno loc.col (loc.col + 3))) ∧
      rangeOkAt ctx (ctx.lineStart loc.lineno + loc.col)
        (ctx.make_range loc.lineno loc.col (loc.col + 3))) ∧
    -- name reference (including the True/False/None special cases)
    (∀ (ctx : SourceContext) (loc : Loc) (id : String) (res : TreeExpr),
      0 < id.length →
      ctx.offsetValid loc id.length →
      build_expr ctx (.Name loc id) = Except.ok res →
      rangeOkAt ctx (ctx.lineStart loc.lineno + loc.col)
        (ctx.make_range loc.lineno loc.col (loc.col + id.length)) ∧
      (res = .TrueLiteral (ctx.make_range loc.lineno loc.col (loc.col + id.length)) ∨
       res = .FalseLiteral (ctx.make_range loc.lineno loc.col (loc.col + id.length)) ∨
       res = .NoneLiteral (ctx.make_range loc.lineno loc.col (loc.col + id.length)) ∨
       res = .Var ⟨ctx.make_range loc.lineno loc.col (loc.col + id.length), id⟩)) ∧
    -- named constant
    (∀ (ctx : SourceContext) (loc : Loc) (value : PyConstVal) (res : TreeExpr),
      ctx.offsetValid loc (PyConstVal.str value).length →
      build_expr ctx (.NameConstant loc value) = Except.ok res →
      rangeOkAt ctx (ctx.lineStart loc.lineno + loc.col)
        (ctx.make_range loc.lineno loc.col (loc.col + (PyConstVal.str value).length)) ∧
      (res = .TrueLiteral (ctx.make_range loc.lineno loc.col
          (loc.col + (PyConstVal.str value).length)) ∨
       res = .FalseLiteral (ctx.make_range loc.lineno loc.col
          (loc.col + (PyConstVal.str value).length)) ∨
       res = .NoneLiteral (ctx.make_range loc.lineno loc.col
          (loc.col + (PyConstVal.str value).length)))) ∧
    -- numeric literal (range sized by the literal's textual spelling)
    (∀ (ctx : SourceContext) (loc : Loc) (lit : String),
      0 < lit.length →
      ctx.offsetValid loc lit.length →
      build_expr ctx (.Num loc lit) =
        Except.ok (.Const (ctx.make_range loc.lineno loc.col (loc.col + lit.length)) lit) ∧
      rangeOkAt ctx (ctx.lineStart loc.lineno + loc.col)
        (ctx.make_range loc.lineno loc.col (loc.col + lit.length))) ∧
    -- string literal (fixed one-character placeholder range)
    (∀ (ctx : SourceContext) (loc : Loc) (s : String),
      ctx.offsetValid loc 1 →
      build_expr ctx (.Str loc s) =
        Except.ok (.StringLiteral (ctx.make_range loc.lineno loc.col (loc.col + 1)) s) ∧
      rangeOkAt ctx (ctx.lineStart loc.lineno + loc.col)
        (ctx.make_range loc.lineno loc.col (loc.col + 1))) ∧
    -- unary op (range sized by the operator token)
    (∀ (ctx : SourceContext) (loc : Loc) (op : UnaryOpKind) (tok : String) (operand : PyExpr)
        (res : TreeExpr),
      unop_map op = some tok →
      ctx.offsetValid loc tok.length →
      build_expr ctx (.UnaryOpE loc op operand) = Except.ok res →
      ∃ sub, res = .UnaryOp (ctx.make_range loc.lineno loc.col (loc.col + tok.length)) tok sub ∧
        rangeOkAt ctx (ctx.lineStart loc.lineno + loc.col)
          (ctx.make_range loc.lineno loc.col (loc.col + tok.length))) ∧
    -- list, tuple and dict literals (opening-bracket range of width 1)
    (∀ (ctx : SourceContext) (loc : Loc) (elts : List PyExpr) (res : TreeExpr),
      ctx.offsetValid loc 1 →
      build_expr ctx (.ListE loc elts) = Except.ok res →
      ∃ ts, res = .ListLiteral (ctx.make_range loc.lineno loc.col (loc.col + 1)) ts ∧
        rangeOkAt ctx (ctx.lineStart loc.lineno + loc.col)
          (ctx.make_range loc.lineno loc.col (loc.col + 1))) ∧
    (∀ (ctx : SourceContext) (loc : Loc) (elts : List PyExpr) (res : TreeExpr),
      ctx.offsetValid loc 1 →
      build_expr ctx (.TupleE loc elts) = Except.ok res →
      ∃ ts, res = .TupleLiteral (ctx.make_range loc.lineno loc.col (loc.col + 1)) ts ∧
        rangeOkAt ctx (ctx.lineStart loc.lineno + loc.col)
          (ctx.make_range loc.lineno loc.col (loc.col + 1))) ∧
    (∀ (ctx : SourceContext) (loc : Loc) (keys values : List PyExpr) (res : TreeExpr),
      ctx.offsetValid loc 1 →
      build_expr ctx (.DictE loc keys values) = Except.ok res →
      ∃ ks vs, res = .DictLiteral (ctx.make_range loc.lineno loc.col (loc.col + 1)) ks vs ∧
        rangeOkAt ctx (ctx.lineStart loc.lineno + loc.col)
          (ctx.make_range loc.lineno loc.col (loc.col + 1))) ∧
    -- starred expression (one-character range at the star)
    (∀ (ctx : SourceContext) (loc : Loc) (v : PyExpr) (res : TreeExpr),
      ctx.offsetValid loc 1 →
      build_expr ctx (.StarredE loc v) = Except.ok res →
      ∃ t, res = .Starred (ctx.make_range loc.lineno loc.col (loc.col + 1)) t ∧
        rangeOkAt ctx (ctx.lineStart loc.lineno + loc.col)
          (ctx.make_range loc.lineno loc.col (loc.col + 1))) ∧
    -- a single `not in` comparison: the root node's attached range is the
    -- gap between the operand ranges, non-empty when the operands are
    -- separated in the text
    (∀ (ctx : SourceContext) (loc : Loc) (left c : PyExpr) (lt ct : TreeExpr) (res : TreeExpr),
      build_expr ctx left = Except.ok lt →
      build_expr ctx c = Except.ok ct →
      lt.range.stop < ct.range.start →
      ct.range.start ≤ ctx.source.length →
      build_expr ctx (.Compare loc left [.NotIn] [c]) = Except.ok res →
      res = .UnaryOp (ctx.make_raw_range lt.range.stop ct.range.start) "not"
          (.BinOp "in" lt ct) ∧
      (ctx.make_raw_range lt.range.stop ct.range.start).start <
        (ctx.make_raw_range lt.range.stop ct.range.start).stop ∧
      (ctx.make_raw_range lt.range.stop ct.range.start).stop ≤ ctx.source.length) ∧
    -- the EXCEPTION: the list-comprehension node's attached range is empty
    -- (start = stop), anchored at the expression's start token
    (∀ (ctx : SourceContext) (loc : Loc) (elt : PyExpr) (gens : List PyComprehension)
        (res : TreeExpr),
      ctx.offsetValid loc 0 →
      build_expr ctx (.ListCompE loc elt gens) = Except.ok res →
      ∃ e t i, res = .ListComp (ctx.make_range loc.lineno loc.col loc.col) e t i ∧
        (ctx.make_range loc.lineno loc.col loc.col).start =
          (ctx.make_range loc.lineno loc.col loc.col).stop ∧
        (ctx.make_range loc.lineno loc.col loc.col).start =
          ctx.lineStart loc.lineno + loc.col ∧
        (ctx.make_range loc.lineno loc.col loc.col).stop ≤ ctx.source.length) := by
  refine ⟨?_, ?_, ?_, ?_, ?_, ?_, ?_, ?_, ?_, ?_, ?_, ?_, ?_, ?_, ?_, ?_, ?_, ?_, ?_, ?_, ?_, ?_⟩
  · intro ctx loc v res hv hok
    rw [build_stmt] at hok
    cases hb : buildOptExpr ctx v with
    | error e => rw [hb] at hok; exact Except.noConfusion hok
    | ok v' =>
        rw [hb] at hok
        simp only [except_bind_ok, except_pure_eq_ok, Except.ok.injEq, Option.some.injEq] at hok
        exact ⟨v', hok.symm, make_range_ok ctx loc _ (by decide) hv⟩
  · intro ctx loc exc res hv hok
    rw [build_stmt] at hok
    cases hb : build_expr_opt ctx exc with
    | error e => rw [hb] at hok; exact Except.noConfusion hok
    | ok e =>
        rw [hb] at hok
        simp only [except_bind_ok, except_pure_eq_ok, Except.ok.injEq, Option.some.injEq] at hok
        exact ⟨e, hok.symm, make_range_ok ctx loc _ (by decide) hv⟩
  · intro ctx loc test msg res hv hok
    rw [build_stmt] at hok
    cases hb : build_expr ctx test with
    | error e => rw [hb] at hok; exact Except.noConfusion hok
    | ok t =>
        rw [hb] at hok
        simp only [except_bind_ok] at hok
        cases hm : buildOptExpr ctx msg with
        | error e => rw [hm] at hok; exact Except.noConfusion hok
        | ok m =>
            rw [hm] at hok
            simp only [except_bind_ok, except_pure_eq_ok, Except.ok.injEq,
              Option.some.injEq] at hok
            exact ⟨t, m, hok.symm, make_range_ok ctx loc _ (by decide) hv⟩
  · intro ctx loc test body orelse res hv hok
    rw [build_stmt] at hok
    by_cases ho : orelse.isEmpty <;> simp only [ho, if_true, if_false, Bool.false_eq_true,
      except_throw_eq_error] at hok
    · cases hb : build_expr ctx test with
      | error e => rw [hb] at hok; exact Except.noConfusion hok
      | ok t =>
          rw [hb] at hok
          simp only [except_bind_ok] at hok
          cases hs : build_stmts ctx body with
          | error e => rw [hs] at hok; exact Except.noConfusion hok
          | ok b =>
              rw [hs] at hok
              simp only [except_bind_ok, except_pure_eq_ok, Except.ok.injEq,
                Option.some.injEq] at hok
              exact ⟨t, b, hok.symm, make_range_ok ctx loc _ (by decide) hv⟩
    · exact Except.noConfusion hok
  · intro ctx loc target iter body orelse res hv hok
    rw [build_stmt] at hok
    cases h1 : build_expr ctx target with
    | error e => rw [h1] at hok; exact Except.noConfusion hok
    | ok t =>
        rw [h1] at hok
        simp only [except_bind_ok] at hok
        cases h2 : build_expr ctx iter with
        | error e => rw [h2] at hok; exact Except.noConfusion hok
        | ok i =>
            rw [h2] at hok
            simp only [except_bind_ok] at hok
            cases h3 : build_stmts ctx body with
            | error e => rw [h3] at hok; exact Except.noConfusion hok
            | ok b =>
                rw [h3] at hok
                simp only [except_bind_ok, except_pure_eq_ok, Except.ok.injEq,
                  Option.some.injEq] at hok
                exact ⟨t, i, b, hok.symm, make_range_ok ctx loc _ (by decide) hv⟩
  · intro ctx loc test body orelse res hv hok
    rw [build_stmt] at hok
    cases h1 : build_expr ctx test with
    | error e => rw [h1] at hok; exact Except.noConfusion hok
    | ok t =>
        rw [h1] at hok
        simp only [except_bind_ok] at hok
        cases h2 : build_stmts ctx body with
        | error e => rw [h2] at hok; exact Except.noConfusion hok
        | ok b =>
            rw [h2] at hok
            simp only [except_bind_ok] at hok
            cases h3 : build_stmts ctx orelse with
            | error e => rw [h3] at hok; exact Except.noConfusion hok
            | ok e =>
                rw [h3] at hok
                simp only [except_bind_ok, except_pure_eq_ok, Except.ok.injEq,
                  Option.some.injEq] at hok
                exact ⟨t, b, e, hok.symm, make_range_ok ctx loc _ (by decide) hv⟩
  · intro ctx loc hv
    exact ⟨by rw [build_stmt]; rfl, make_range_ok ctx loc _ (by decide) hv⟩
  · intro ctx loc hv
    exact ⟨by rw [build_stmt]; rfl, make_range_ok ctx loc _ (by decide) hv⟩
  · intro ctx loc hv
    exact ⟨by rw [build_stmt]; rfl, make_range_ok ctx loc _ (by decide) hv⟩
  · intro ctx loc items body res hv hok
    rw [build_stmt] at hok
    cases h1 : build_withitems ctx items with
    | error e => rw [h1] at hok; exact Except.noConfusion hok
    | ok its =>
        rw [h1] at hok
        simp only [except_bind_ok] at hok
        cases h2 : build_stmts ctx body with
        | error e => rw [h2] at hok; exact Except.noConfusion hok
        | ok b =>
            rw [h2] at hok
            simp only [except_bind_ok, except_pure_eq_ok, Except.ok.injEq,
              Option.some.injEq] at hok
            exact ⟨its, b, hok.symm, make_range_ok ctx loc _ (by decide) hv⟩
  · intro ctx loc hv
    exact ⟨by rw [build_expr, build_Ellipsis]; rfl, make_range_ok ctx loc _ (by decide) hv⟩
  · intro ctx loc id res hlen hv hok
    refine ⟨make_range_ok ctx loc _ hlen hv, ?_⟩
    rw [build_expr, build_Name] at hok
    split_ifs at hok <;>
      simp only [except_throw_eq_error, except_pure_eq_ok, Except.ok.injEq] at hok <;>
      first
      | exact Except.noConfusion hok
      | exact Or.inl hok.symm
      | exact Or.inr (Or.inl hok.symm)
      | exact Or.inr (Or.inr (Or.inl hok.symm))
      | exact Or.inr (Or.inr (Or.inr hok.symm))
  · intro ctx loc value res hv hok
    have hk : 0 < (PyConstVal.str value).length := by cases value <;> decide
    refine ⟨make_range_ok ctx loc _ hk hv, ?_⟩
    rw [build_expr, build_NameConstant.eq_def] at hok
    cases value <;>
      simp only [PyConstVal.str, except_pure_eq_ok, Except.ok.injEq] at hok <;>
      first
      | exact Or.inl hok.symm
      | exact Or.inr (Or.inl hok.symm)
      | exact Or.inr (Or.inr hok.symm)
  · intro ctx loc lit hlen hv
    exact ⟨by rw [build_expr, build_Num]; rfl, make_range_ok ctx loc _ hlen hv⟩
  · intro ctx loc s hv
    exact ⟨by rw [build_expr, build_Str]; rfl, make_range_ok ctx loc _ (by decide) hv⟩
  · intro ctx loc op tok operand res hop hv hok
    have hk : 0 < tok.length := by
      cases op <;> simp only [unop_map, Option.some.injEq] at hop <;>
        first
        | (subst hop; decide)
        | exact Option.noConfusion hop
    rw [build_expr] at hok
    cases hsub : build_expr ctx operand with
    | error e => rw [hsub] at hok; exact Except.noConfusion hok
    | ok sub =>
        rw [hsub] at hok
        simp only [except_bind_ok, hop, except_pure_eq_ok, Except.ok.injEq] at hok
        exact ⟨sub, hok.symm, make_range_ok ctx loc _ hk hv⟩
  · intro ctx loc elts res hv hok
    rw [build_expr] at hok
    cases hb : build_exprs ctx elts with
    | error e => rw [hb] at hok; exact Except.noConfusion hok
    | ok ts =>
        rw [hb] at hok
        simp only [except_bind_ok, except_pure_eq_ok, Except.ok.injEq] at hok
        exact ⟨ts, hok.symm, make_range_ok ctx loc _ (by decide) hv⟩
  · intro ctx loc elts res hv hok
    rw [build_expr] at hok
    cases hb : build_exprs ctx elts with
    | error e => rw [hb] at hok; exact Except.noConfusion hok
    | ok ts =>
        rw [hb] at hok
        simp only [except_bind_ok, except_pure_eq_ok, Except.ok.injEq] at hok
        exact ⟨ts, hok.symm, make_range_ok ctx loc _ (by decide) hv⟩
  · intro ctx loc keys values res hv hok
    rw [build_expr] at hok
    cases h1 : build_exprs ctx keys with
    | error e => rw [h1] at hok; exact Except.noConfusion hok
    | ok ks =>
        rw [h1] at hok
        simp only [except_bind_ok] at hok
        cases h2 : build_exprs ctx values with
        | error e => rw [h2] at hok; exact Except.noConfusion hok
        | ok vs =>
            rw [h2] at hok
            simp only [except_bind_ok, except_pure_eq_ok, Except.ok.injEq] at hok
            exact ⟨ks, vs, hok.symm, make_range_ok ctx loc _ (by decide) hv⟩
  · intro ctx loc v res hv hok
    rw [build_expr] at hok
    cases hb : build_expr ctx v with
    | error e => rw [hb] at hok; exact Except.noConfusion hok
    | ok t =>
        rw [hb] at hok
        simp only [except_bind_ok, except_pure_eq_ok, Except.ok.injEq] at hok
        exact ⟨t, hok.symm, make_range_ok ctx loc _ (by decide) hv⟩
  · intro ctx loc left c lt ct res hl hc hsep hin hok
    have hcs : build_exprs ctx [c] = Except.ok [ct] := by
      rw [build_exprs, hc]
      simp only [except_bind_ok]
      rw [build_exprs]
      rfl
    rw [build_expr, hl] at hok
    simp only [except_bind_ok, hcs] at hok
    rw [compareLoop_start ctx .NotIn [] lt ct [] rfl] at hok
    simp only [except_bind_ok, except_pure_eq_ok, Except.ok.injEq] at hok
    refine ⟨?_, by simp [SourceContext.make_raw_range]; omega,
      by simp [SourceContext.make_raw_range]; omega⟩
    rw [← hok]
    simp [conjoin, pairwiseCmp]
  · intro ctx loc elt gens res hv hok
    cases gens with
    | nil =>
        rw [build_expr] at hok
        simp at hok
    | cons g gs =>
        cases g with
        | mk target iter ifs =>
            rw [build_expr] at hok
            split_ifs at hok with hg hifs
            all_goals
              first
              | exact Except.noConfusion hok
              | (cases h1 : build_expr ctx elt with
                 | error e => simp [h1] at hok
                 | ok e =>
                     simp only [h1, except_bind_ok] at hok
                     cases h2 : build_expr ctx target with
                     | error er => simp [h2] at hok
                     | ok t =>
                         simp only [h2, except_bind_ok] at hok
                         cases h3 : build_expr ctx iter with
                         | error er => simp [h3] at hok
                         | ok i =>
                             simp only [h3, except_bind_ok, except_pure_eq_ok,
                               Except.ok.injEq] at hok
                             refine ⟨e, t, i, hok.symm, rfl, rfl, ?_⟩
                             unfold SourceContext.offsetValid at hv
                             unfold SourceContext.make_range
                             dsimp only
                             omega)

/-- Witness for the amended C9, instantiating every conjunct at a concrete
source snippet. -/
theorem claim_C9_witness :
    rangeOkAt ⟨"return", true⟩ 0 ⟨0, 6⟩ ∧
    rangeOkAt ⟨"raise x", true⟩ 0 ⟨0, 5⟩ ∧
    rangeOkAt ⟨"assert x", true⟩ 0 ⟨0, 6⟩ ∧
    rangeOkAt ⟨"while x: pass", true⟩ 0 ⟨0, 5⟩ ∧
    rangeOkAt ⟨"for i in y: pass", true⟩ 0 ⟨0, 3⟩ ∧
    rangeOkAt ⟨"if x: pass", true⟩ 0 ⟨0, 2⟩ ∧
    rangeOkAt ⟨"pass", true⟩ 0 ⟨0, 4⟩ ∧
    rangeOkAt ⟨"break", true⟩ 0 ⟨0, 5⟩ ∧
    rangeOkAt ⟨"continue", true⟩ 0 ⟨0, 8⟩ ∧
    rangeOkAt ⟨"with x: pass", true⟩ 0 ⟨0, 4⟩ ∧
    rangeOkAt ⟨"...", true⟩ 0 ⟨0, 3⟩ ∧
    rangeOkAt ⟨"x", true⟩ 0 ⟨0, 1⟩ ∧
    rangeOkAt ⟨"None", true⟩ 0 ⟨0, 4⟩ ∧
    rangeOkAt ⟨"42", true⟩ 0 ⟨0, 2⟩ ∧
    rangeOkAt ⟨"abc", true⟩ 0 ⟨0, 1⟩ ∧
    rangeOkAt ⟨"not x", true⟩ 0 ⟨0, 3⟩ ∧
    rangeOkAt ⟨"[]", true⟩ 0 ⟨0, 1⟩ ∧
    rangeOkAt ⟨"()", true⟩ 0 ⟨0, 1⟩ ∧
    rangeOkAt ⟨"\x7b\x7d", true⟩ 0 ⟨0, 1⟩ ∧
    rangeOkAt ⟨"*x", true⟩ 0 ⟨0, 1⟩ ∧
    ((Range.mk 1 9).start < (Range.mk 1 9).stop ∧
      (Range.mk 1 9).stop ≤ ("a not in b").length) ∧
    ((Range.mk 0 0).start = (Range.mk 0 0).stop ∧
      (Range.mk 0 0).stop ≤ ("[x for x in y]").length) := by
  obtain ⟨h1, h2, h3, h4, h5, h6, h7, h8, h9, h10, h11, h12, h13, h14, h15, h16, h17,
    h18, h19, h20, h21, h22⟩ := claim_C9_attached_ranges
  refine ⟨?_, ?_, ?_, ?_, ?_, ?_, ?_, ?_, ?_, ?_, ?_, ?_, ?_, ?_, ?_, ?_, ?_, ?_, ?_,
    ?_, ?_, ?_⟩
  · obtain ⟨_, _, hr⟩ := h1 ⟨"return", true⟩ ⟨1, 0⟩ none (.Return ⟨0, 6⟩ none)
      (by unfold SourceContext.offsetValid; decide)
      (by simp [build_stmt, buildOptExpr, SourceContext.make_range,
        SourceContext.lineStart, lineStartList]; rfl)
    exact hr
  · obtain ⟨_, _, hr⟩ := h2 ⟨"raise x", true⟩ ⟨1, 0⟩ (some (.Name ⟨1, 6⟩ "x"))
      (.Raise ⟨0, 5⟩ (.Var ⟨⟨6, 7⟩, "x"⟩))
      (by unfold SourceContext.offsetValid; decide)
      (by simp [build_stmt, build_expr_opt, build_expr, build_Name,
        SourceContext.make_range, SourceContext.lineStart, lineStartList, reservedPref]; rfl)
    exact hr
  · obtain ⟨_, _, _, hr⟩ := h3 ⟨"assert x", true⟩ ⟨1, 0⟩ (.Name ⟨1, 7⟩ "x") none
      (.Assert ⟨0, 6⟩ (.Var ⟨⟨7, 8⟩, "x"⟩) none)
      (by unfold SourceContext.offsetValid; decide)
      (by simp [build_stmt, buildOptExpr, build_expr, build_Name,
        SourceContext.make_range, SourceContext.lineStart, lineStartList, reservedPref]; rfl)
    exact hr
  · obtain ⟨_, _, _, hr⟩ := h4 ⟨"while x: pass", true⟩ ⟨1, 0⟩ (.Name ⟨1, 6⟩ "x")
      [.Pass ⟨1, 9⟩] [] (.While ⟨0, 5⟩ (.Var ⟨⟨6, 7⟩, "x"⟩) [.Pass ⟨9, 13⟩])
      (by unfold SourceContext.offsetValid; decide)
      (by simp [build_stmt, build_stmts, build_expr, build_Name,
        SourceContext.make_range, SourceContext.lineStart, lineStartList, reservedPref]; rfl)
    exact hr
  · obtain ⟨_, _, _, _, hr⟩ := h5 ⟨"for i in y: pass", true⟩ ⟨1, 0⟩ (.Name ⟨1, 4⟩ "i")
      (.Name ⟨1, 9⟩ "y") [.Pass ⟨1, 12⟩] []
      (.For ⟨0, 3⟩ [.Var ⟨⟨4, 5⟩, "i"⟩] [.Var ⟨⟨9, 10⟩, "y"⟩] [.Pass ⟨12, 16⟩])
      (by unfold SourceContext.offsetValid; decide)
      (by simp [build_stmt, build_stmts, build_expr, build_Name,
        SourceContext.make_range, SourceContext.lineStart, lineStartList, reservedPref]; rfl)
    exact hr
  · obtain ⟨_, _, _, _, hr⟩ := h6 ⟨"if x: pass", true⟩ ⟨1, 0⟩ (.Name ⟨1, 3⟩ "x")
      [.Pass ⟨1, 6⟩] [] (.If ⟨0, 2⟩ (.Var ⟨⟨3, 4⟩, "x"⟩) [.Pass ⟨6, 10⟩] [])
      (by unfold SourceContext.offsetValid; decide)
      (by simp [build_stmt, build_stmts, build_expr, build_Name,
        SourceContext.make_range, SourceContext.lineStart, lineStartList, reservedPref]; rfl)
    exact hr
  · exact (h7 ⟨"pass", true⟩ ⟨1, 0⟩ (by unfold SourceContext.offsetValid; decide)).2
  · exact (h8 ⟨"break", true⟩ ⟨1, 0⟩ (by unfold SourceContext.offsetValid; decide)).2
  · exact (h9 ⟨"continue", true⟩ ⟨1, 0⟩ (by unfold SourceContext.offsetValid; decide)).2
  · obtain ⟨_, _, _, hr⟩ := h10 ⟨"with x: pass", true⟩ ⟨1, 0⟩ [⟨.Name ⟨1, 5⟩ "x", none⟩]
      [.Pass ⟨1, 8⟩]
      (.With ⟨0, 4⟩ [⟨⟨5, 20⟩, .Var ⟨⟨5, 6⟩, "x"⟩, none⟩] [.Pass ⟨8, 12⟩])
      (by unfold SourceContext.offsetValid; decide)
      (by simp [build_stmt, build_stmts, build_withitems, build_withitem, buildOptExpr,
        build_expr, build_Name, PyExpr.loc, SourceContext.make_range,
        SourceContext.lineStart, lineStartList, reservedPref]; rfl)
    exact hr
  · exact (h11 ⟨"...", true⟩ ⟨1, 0⟩ (by unfold SourceContext.offsetValid; decide)).2
  · exact (h12 ⟨"x", true⟩ ⟨1, 0⟩ "x" (.Var ⟨⟨0, 1⟩, "x"⟩) (by decide)
      (by unfold SourceContext.offsetValid; decide)
      (by simp [build_expr, build_Name, SourceContext.make_range, SourceContext.lineStart,
        lineStartList, reservedPref]; rfl)).1
  · exact (h13 ⟨"None", true⟩ ⟨1, 0⟩ .vNone (.NoneLiteral ⟨0, 4⟩)
      (by unfold SourceContext.offsetValid; decide)
      (by simp [build_expr, build_NameConstant, PyConstVal.str, SourceContext.make_range,
        SourceContext.lineStart, lineStartList]; rfl)).1
  · exact (h14 ⟨"42", true⟩ ⟨1, 0⟩ "42" (by decide)
      (by unfold SourceContext.offsetValid; decide)).2
  · exact (h15 ⟨"abc", true⟩ ⟨1, 0⟩ "abc"
      (by unfold SourceContext.offsetValid; decide)).2
  · obtain ⟨_, _, hr⟩ := h16 ⟨"not x", true⟩ ⟨1, 0⟩ .Not "not" (.Name ⟨1, 4⟩ "x")
      (.UnaryOp ⟨0, 3⟩ "not" (.Var ⟨⟨4, 5⟩, "x"⟩)) rfl
      (by unfold SourceContext.offsetValid; decide)
      (by simp [build_expr, build_Name, unop_map, SourceContext.make_range,
        SourceContext.lineStart, lineStartList, reservedPref]; rfl)
    exact hr
  · obtain ⟨_, _, hr⟩ := h17 ⟨"[]", true⟩ ⟨1, 0⟩ [] (.ListLiteral ⟨0, 1⟩ [])
      (by unfold SourceContext.offsetValid; decide)
      (by simp [build_expr, build_exprs, SourceContext.make_range, SourceContext.lineStart,
        lineStartList])
    exact hr
  · obtain ⟨_, _, hr⟩ := h18 ⟨"()", true⟩ ⟨1, 0⟩ [] (.TupleLiteral ⟨0, 1⟩ [])
      (by unfold SourceContext.offsetValid; decide)
      (by simp [build_expr, build_exprs, SourceContext.make_range, SourceContext.lineStart,
        lineStartList])
    exact hr
  · obtain ⟨_, _, _, hr⟩ := h19 ⟨"\x7b\x7d", true⟩ ⟨1, 0⟩ [] [] (.DictLiteral ⟨0, 1⟩ [] [])
      (by unfold SourceContext.offsetValid; decide)
      (by simp [build_expr, build_exprs, SourceContext.make_range, SourceContext.lineStart,
        lineStartList])
    exact hr
  · obtain ⟨_, _, hr⟩ := h20 ⟨"*x", true⟩ ⟨1, 0⟩ (.Name ⟨1, 1⟩ "x")
      (.Starred ⟨0, 1⟩ (.Var ⟨⟨1, 2⟩, "x"⟩))
      (by unfold SourceContext.offsetValid; decide)
      (by simp [build_expr, build_Name, SourceContext.make_range, SourceContext.lineStart,
        lineStartList, reservedPref]; rfl)
    exact hr
  · obtain ⟨_, hne, hwithin⟩ := h21 ⟨"a not in b", true⟩ ⟨1, 0⟩ (.Name ⟨1, 0⟩ "a")
      (.Name ⟨1, 9⟩ "b") (.Var ⟨⟨0, 1⟩, "a"⟩) (.Var ⟨⟨9, 10⟩, "b"⟩)
      (.UnaryOp ⟨1, 9⟩ "not" (.BinOp "in" (.Var ⟨⟨0, 1⟩, "a"⟩) (.Var ⟨⟨9, 10⟩, "b"⟩)))
      (by simp [build_expr, build_Name, SourceContext.make_range, SourceContext.lineStart,
        lineStartList, reservedPref]; rfl)
      (by simp [build_expr, build_Name, SourceContext.make_range, SourceContext.lineStart,
        lineStartList, reservedPref]; rfl)
      (by decide) (by decide)
      (by simp [build_expr, build_exprs, build_Name, zip3, compareLoop, cmpop_map,
        TreeExpr.range, SourceContext.make_range, SourceContext.make_raw_range,
        SourceContext.lineStart, lineStartList, reservedPref]; rfl)
    exact ⟨hne, hwithin⟩
  · obtain ⟨_, _, _, _, heq, _, hle⟩ := h22 ⟨"[x for x in y]", true⟩ ⟨1, 0⟩
      (.Name ⟨1, 1⟩ "x") [.mk (.Name ⟨1, 7⟩ "x") (.Name ⟨1, 12⟩ "y") []]
      (.ListComp ⟨0, 0⟩ (.Var ⟨⟨1, 2⟩, "x"⟩) (.Var ⟨⟨7, 8⟩, "x"⟩) (.Var ⟨⟨12, 13⟩, "y"⟩))
      (by unfold SourceContext.offsetValid; decide)
      (by rw [build_expr]; simp [build_Name, SourceContext.make_range,
        SourceContext.lineStart, lineStartList, reservedPref, build_expr]; rfl)
    exact ⟨heq, hle⟩

end Frontend
